import Mathlib

/-!
Shallow embedding of the digiLogRT cache-and-sync pipeline.

Source files embedded here:
- internal/database/schema.sql        (tables, uniqueness constraints, seeds)
- internal/database/database.go       (UpsertLocation, GetSourceID)
- internal/database/integration.go    (SyncBrandmeisterData, SyncTGIFData,
                                       SyncHearhamData, GetRepeatersByFrequency)
- internal/api/hearham.go             (HearhamRepeater, loadFromCache, fetchAllData)
- internal/api/tgif.go                (TGIFTalkgroup)
- internal/api/pool.go                (ClientPool.Initialize)
- cmd/sync_databases_fast/sync_databases_fast.go (streamBrandmeisterData)

Conventions of the embedding:
- SQLite tables are lists of row structures in insertion order; AUTOINCREMENT
  ids are modelled by a monotone `next…Id` counter in the database state.
- `DATETIME` values and `time.Duration` values are integers (nanoseconds);
  every sync call takes the current time `now` as an explicit parameter,
  standing for the `time.Now()` / `CURRENT_TIMESTAMP` instants of that call.
- Go `float64` coordinate and frequency values are rationals (`ℚ`).
- Fallible operations return `Except String`; a transaction that returns an
  error leaves the caller's database state unchanged (rollback), which the
  embedding renders by simply not producing a new state on error.
-/

namespace DigiLog

/-- `api.BrandmeisterRepeater` (internal/api: struct with json tags id, callsign,
city, state, country, tx, rx, colorcode, lat, lng, status, hardware, firmware,
website, pep, agl, lastKnownMaster, description). Frequencies arrive as strings. -/
structure BrandmeisterRepeater where
  id : Int
  callsign : String
  city : String
  state : String
  country : String
  txFreq : String
  rxFreq : String
  colorCode : Int
  latitude : ℚ
  longitude : ℚ
  status : Int
  hardware : String
  firmware : String
  website : String
  pep : Int
  agl : Int
  lastMaster : Int
  description : String
deriving DecidableEq, Repr

/-- `api.HearhamRepeater` (internal/api/hearham.go:17-34). `frequency` and
`offset` are int64 Hz values; `operational` is an int flag. -/
structure HearhamRepeater where
  id : Int
  callsign : String
  latitude : ℚ
  longitude : ℚ
  city : String
  group : String
  internetNode : String
  mode : String
  encode : String
  decode : String
  frequency : Int
  offset : Int
  description : String
  power : String
  operational : Int
  restriction : String
deriving DecidableEq, Repr

/-- `api.TGIFTalkgroup` (internal/api/tgif.go:17-23): the id arrives as a string. -/
structure TGIFTalkgroup where
  id : String
  name : String
  website : String
  description : String
deriving DecidableEq, Repr

/-- Row of the `locations` table (schema.sql:2-11); UNIQUE(city, state, country). -/
structure LocationRow where
  id : Nat
  city : String
  state : String
  country : String
  latitude : ℚ
  longitude : ℚ
  created_at : Int
deriving DecidableEq, Repr

/-- Row of the `repeaters` table (schema.sql:31-78);
UNIQUE(source_id, external_id). Nullable columns are `Option`s; `operational`
defaults to true and `online_status` to false when an INSERT omits them. -/
structure RepeaterRow where
  id : Nat
  callsign : String
  source_id : Nat
  external_id : String
  location_id : Option Nat
  tx_frequency : Option ℚ
  rx_frequency : Option ℚ
  offset_frequency : Option ℚ
  tone_frequency : Option ℚ
  mode : String
  color_code : Option Int
  digital_modes : Option String
  operational : Bool
  online_status : Bool
  last_seen : Option Int
  power_watts : Option Int
  antenna_height_agl : Option Int
  antenna_height_msl : Option Int
  hardware : Option String
  firmware : Option String
  website : Option String
  description : Option String
  created_at : Int
  updated_at : Int
  last_api_sync : Int
deriving DecidableEq, Repr

/-- Row of the `talkgroups` table (schema.sql:81-98); UNIQUE(talkgroup_id, network). -/
structure TalkgroupRow where
  id : Nat
  talkgroup_id : Int
  name : String
  description : String
  network : String
  active : Bool
  created_at : Int
  updated_at : Int
deriving DecidableEq, Repr

/-- Row of the `repeater_sources` table (schema.sql:22-28); `last_sync` and
`total_records` start NULL for the seeded rows. -/
structure SourceRow where
  id : Nat
  source_name : String
  base_url : String
  last_sync : Option Int
  total_records : Option Int
deriving DecidableEq, Repr

/-- The relational store: each table as a list of rows in insertion order,
with AUTOINCREMENT counters. -/
structure Database where
  locations : List LocationRow
  repeaters : List RepeaterRow
  talkgroups : List TalkgroupRow
  repeater_sources : List SourceRow
  nextLocationId : Nat
  nextRepeaterId : Nat
  nextTalkgroupId : Nat
deriving DecidableEq, Repr

/-- The five seed rows of `repeater_sources` (schema.sql:154-159),
inserted idempotently at schema creation. -/
def initialSources : List SourceRow :=
  [ ⟨1, "brandmeister", "https://api.brandmeister.network", none, none⟩,
    ⟨2, "hearham", "https://hearham.com", none, none⟩,
    ⟨3, "repeaterbook", "https://repeaterbook.com", none, none⟩,
    ⟨4, "tgif", "https://tgif.network", none, none⟩,
    ⟨5, "aprs", "https://api.aprs.fi", none, none⟩ ]

/-- Fresh database right after `initSchema`: empty data tables, seeded sources. -/
def emptyDatabase : Database :=
  { locations := []
    repeaters := []
    talkgroups := []
    repeater_sources := initialSources
    nextLocationId := 1
    nextRepeaterId := 1
    nextTalkgroupId := 1 }

/-- `Database.GetSourceID` (database.go:172-180): SELECT id FROM
repeater_sources WHERE source_name = ?. -/
def GetSourceID (db : Database) (sourceName : String) : Except String Nat :=
  match db.repeater_sources.find? (fun s => s.source_name == sourceName) with
  | some s => .ok s.id
  | none => .error ("failed to get source ID for " ++ sourceName)

/-- Digit-string parser used by the models of `strconv.ParseFloat` and
`strconv.Atoi`; `none` on an empty string or a non-digit character. -/
def digitsToNat? (l : List Char) : Option Nat :=
  match l with
  | [] => none
  | _ => l.foldl (fun acc c =>
      acc.bind fun n => if c.isDigit then some (10 * n + (c.toNat - 48)) else none)
      (some 0)

/-- Model of `strconv.ParseFloat(s, 64)` restricted to plain decimal numerals
(optional sign, digits, at most one point); anything else parses to `none`,
which the sync code stores as NULL. -/
def parseFloat? (s : String) : Option ℚ :=
  let (sign, rest) : ℚ × List Char :=
    match s.toList with
    | '-' :: cs => (-1, cs)
    | '+' :: cs => (1, cs)
    | cs => (1, cs)
  match (String.mk rest).splitOn "." with
  | [ip] => (digitsToNat? ip.toList).map (fun n => sign * (n : ℚ))
  | [ip, fp] =>
    match digitsToNat? ip.toList, digitsToNat? fp.toList with
    | some n, some f => some (sign * ((n : ℚ) + (f : ℚ) / ((10 : ℚ) ^ fp.length)))
    | _, _ => none
  | _ => none

/-- Model of `strconv.Atoi`: optional sign then digits. -/
def parseInt? (s : String) : Option Int :=
  match s.toList with
  | '-' :: cs => (digitsToNat? cs).map (fun n => -(n : Int))
  | '+' :: cs => (digitsToNat? cs).map (fun n => (n : Int))
  | cs => (digitsToNat? cs).map (fun n => (n : Int))

/-- First `locations` row matching the natural key (city, state, country). -/
def findLocationByKey (locs : List LocationRow) (city state country : String) :
    Option LocationRow :=
  locs.find? (fun l => l.city == city && l.state == state && l.country == country)

/-- INSERT OR IGNORE INTO locations (city, state, country, latitude, longitude):
a no-op when a row with the same natural key exists, otherwise appends a fresh
row (`created_at` takes the DEFAULT CURRENT_TIMESTAMP). -/
def insertOrIgnoreLocation (db : Database) (city state country : String)
    (lat lng : ℚ) (now : Int) : Database :=
  match findLocationByKey db.locations city state country with
  | some _ => db
  | none =>
    { db with
      locations := db.locations ++
        [⟨db.nextLocationId, city, state, country, lat, lng, now⟩]
      nextLocationId := db.nextLocationId + 1 }

/-- SELECT id FROM locations WHERE city = ? AND state = ? AND country = ?
AND latitude = ? AND longitude = ? (the Brandmeister sync's lookup,
integration.go:41-47). -/
def lookupLocationExact (locs : List LocationRow) (city state country : String)
    (lat lng : ℚ) : Option Nat :=
  (locs.find? (fun l => l.city == city && l.state == state &&
    l.country == country && l.latitude == lat && l.longitude == lng)).map (·.id)

/-- Identity key of a repeater row: the pair covered by
UNIQUE(source_id, external_id) (schema.sql:77). -/
def repeaterKey (r : RepeaterRow) : Nat × String := (r.source_id, r.external_id)

/-- INSERT OR REPLACE INTO repeaters: SQLite deletes every row that conflicts
on UNIQUE(source_id, external_id) and then inserts the new row under a fresh
AUTOINCREMENT id; the caller builds `row` with `row.id = db.nextRepeaterId`. -/
def insertOrReplaceRepeater (db : Database) (row : RepeaterRow) : Database :=
  { db with
    repeaters := db.repeaters.filter (fun r => !(repeaterKey r == repeaterKey row)) ++ [row]
    nextRepeaterId := db.nextRepeaterId + 1 }

/-- Identity key of a talkgroup row: UNIQUE(talkgroup_id, network) (schema.sql:97). -/
def talkgroupKey (t : TalkgroupRow) : Int × String := (t.talkgroup_id, t.network)

/-- INSERT OR REPLACE INTO talkgroups, keyed on (talkgroup_id, network). -/
def insertOrReplaceTalkgroup (db : Database) (row : TalkgroupRow) : Database :=
  { db with
    talkgroups := db.talkgroups.filter (fun t => !(talkgroupKey t == talkgroupKey row)) ++ [row]
    nextTalkgroupId := db.nextTalkgroupId + 1 }

/-- UPDATE repeater_sources SET last_sync = ?, total_records = ? WHERE
source_name = ? (integration.go:156-159 and 306-309). -/
def updateRepeaterSource (db : Database) (sourceName : String) (now : Int)
    (count : Nat) : Database :=
  { db with
    repeater_sources := db.repeater_sources.map (fun s =>
      if s.source_name == sourceName then
        { s with last_sync := some now, total_records := some (count : Int) }
      else s) }

/-- Key of the Brandmeister sync's in-memory location cache: the formatted
string `fmt.Sprintf("%s|%s|%s|%.6f|%.6f", City, "", Country, Latitude,
Longitude)` (integration.go:79), modelled as the tuple of its components. -/
structure BmLocKey where
  city : String
  state : String
  country : String
  latitude : ℚ
  longitude : ℚ
deriving DecidableEq, Repr

/-- Location-cache key built for a Brandmeister record (state is always ""). -/
def bmLocationKey (rep : BrandmeisterRepeater) : BmLocKey :=
  ⟨rep.city, "", rep.country, rep.latitude, rep.longitude⟩

/-- State threaded through one `SyncBrandmeisterData` transaction: the database
plus the per-batch in-memory location-id cache (integration.go:29). -/
structure BmSyncState where
  db : Database
  locationCache : List (BmLocKey × Nat)
deriving DecidableEq, Repr

/-- Guard of the location branch in the Brandmeister sync
(integration.go:87): insert a location only when some field is non-trivial. -/
def bmLocCond (rep : BrandmeisterRepeater) : Prop :=
  rep.city ≠ "" ∨ rep.country ≠ "" ∨ rep.latitude ≠ 0 ∨ rep.longitude ≠ 0

instance (rep : BrandmeisterRepeater) : Decidable (bmLocCond rep) := by
  unfold bmLocCond; infer_instance

/-- Location resolution for one Brandmeister record (integration.go:78-102):
check the in-memory cache, else INSERT OR IGNORE the location and look its id
up by the full five-column match, caching the id on success. -/
def bmProcessLocation (s : BmSyncState) (rep : BrandmeisterRepeater) (now : Int) :
    Option Nat × BmSyncState :=
  match s.locationCache.lookup (bmLocationKey rep) with
  | some cachedID => (some cachedID, s)
  | none =>
    if bmLocCond rep then
      match lookupLocationExact (insertOrIgnoreLocation s.db rep.city "" rep.country
          rep.latitude rep.longitude now).locations rep.city "" rep.country
          rep.latitude rep.longitude with
      | some locID =>
        (some locID,
          ⟨insertOrIgnoreLocation s.db rep.city "" rep.country rep.latitude rep.longitude now,
           (bmLocationKey rep, locID) :: s.locationCache⟩)
      | none =>
        (none,
          ⟨insertOrIgnoreLocation s.db rep.city "" rep.country rep.latitude rep.longitude now,
           s.locationCache⟩)
    else (none, s)

/-- TX-frequency column value for a Brandmeister record
(integration.go:105-111): NULL when the string is empty or unparseable. -/
def bmTxFrequency (rep : BrandmeisterRepeater) : Option ℚ :=
  if rep.txFreq = "" then none else parseFloat? rep.txFreq

/-- RX-frequency column value for a Brandmeister record (integration.go:112-117). -/
def bmRxFrequency (rep : BrandmeisterRepeater) : Option ℚ :=
  if rep.rxFreq = "" then none else parseFloat? rep.rxFreq

/-- The repeaters row written for one Brandmeister record by the prepared
INSERT OR REPLACE (integration.go:49-60 and 123-140). Columns the statement
does not list take the schema defaults; `external_id` is the TEXT rendering of
the integer id; `isOnline := rep.Status > 0`. -/
def bmRepeaterRow (id : Nat) (sourceID : Nat) (rep : BrandmeisterRepeater)
    (locationID : Option Nat) (now : Int) : RepeaterRow :=
  { id := id
    callsign := rep.callsign
    source_id := sourceID
    external_id := toString rep.id
    location_id := locationID
    tx_frequency := bmTxFrequency rep
    rx_frequency := bmRxFrequency rep
    offset_frequency := none
    tone_frequency := none
    mode := "DMR"
    color_code := some rep.colorCode
    digital_modes := none
    operational := true
    online_status := decide (rep.status > 0)
    last_seen := none
    power_watts := some rep.pep
    antenna_height_agl := some rep.agl
    antenna_height_msl := none
    hardware := some rep.hardware
    firmware := none
    website := some rep.website
    description := some rep.description
    created_at := now
    updated_at := now
    last_api_sync := now }

/-- One iteration of the Brandmeister sync's record loop
(integration.go:77-147): resolve the location, then INSERT OR REPLACE the
repeater row. -/
def bmProcessRecord (sourceID : Nat) (now : Int) (s : BmSyncState)
    (rep : BrandmeisterRepeater) : BmSyncState :=
  let (locationID, s1) := bmProcessLocation s rep now
  { s1 with
    db := insertOrReplaceRepeater s1.db
      (bmRepeaterRow s1.db.nextRepeaterId sourceID rep locationID now) }

/-- `Database.SyncBrandmeisterData` (integration.go:15-171): one transaction
that upserts every record of the batch in input order (the batch-of-100 chunking
of the loop only affects progress printing) and finally updates the
brandmeister row of `repeater_sources`; an error rolls the whole
transaction back, so no new state is produced. -/
def SyncBrandmeisterData (db : Database) (repeaters : List BrandmeisterRepeater)
    (now : Int) : Except String Database :=
  match GetSourceID db "brandmeister" with
  | .error e => .error ("failed to get Brandmeister source ID: " ++ e)
  | .ok sourceID =>
    let s := repeaters.foldl (bmProcessRecord sourceID now) ⟨db, []⟩
    .ok (updateRepeaterSource s.db "brandmeister" now repeaters.length)

/-- One iteration of the TGIF sync's loop (integration.go:197-210): records
whose id fails `strconv.Atoi` are skipped with a warning. -/
def tgifProcessRecord (now : Int) (db : Database) (tg : TGIFTalkgroup) : Database :=
  match parseInt? tg.id with
  | none => db
  | some tgID =>
    insertOrReplaceTalkgroup db
      ⟨db.nextTalkgroupId, tgID, tg.name, tg.description, "tgif", true, now, now⟩

/-- `Database.SyncTGIFData` (integration.go:176-219): upserts every parseable
talkgroup in one transaction and commits. The function never touches the
`repeater_sources` table. -/
def SyncTGIFData (db : Database) (talkgroups : List TGIFTalkgroup) (now : Int) :
    Except String Database :=
  .ok (talkgroups.foldl (tgifProcessRecord now) db)

/-- TX-frequency column value for a hearham record (integration.go:281-285):
the int64 Hz value, NULL when it is zero. -/
def hearhamTxFrequency (rep : HearhamRepeater) : Option ℚ :=
  if rep.frequency ≠ 0 then some (rep.frequency : ℚ) else none

/-- The repeaters row written for one hearham record by the prepared INSERT OR
REPLACE (integration.go:245-254 and 288-298): the callsign doubles as
external_id, RX frequency is NULL, `operational` is hard-coded true and
`online_status` takes the schema default false. -/
def hearhamRepeaterRow (id : Nat) (sourceID : Nat) (rep : HearhamRepeater)
    (locationID : Option Nat) (now : Int) : RepeaterRow :=
  { id := id
    callsign := rep.callsign
    source_id := sourceID
    external_id := rep.callsign
    location_id := locationID
    tx_frequency := hearhamTxFrequency rep
    rx_frequency := none
    offset_frequency := none
    tone_frequency := none
    mode := rep.mode
    color_code := none
    digital_modes := none
    operational := true
    online_status := false
    last_seen := none
    power_watts := none
    antenna_height_agl := none
    antenna_height_msl := none
    hardware := none
    firmware := none
    website := none
    description := none
    created_at := now
    updated_at := now
    last_api_sync := now }

/-- One iteration of the hearham sync's loop (integration.go:258-303):
INSERT OR IGNORE the location (city, "", "", 0, 0), look its id up by the
natural key alone, then INSERT OR REPLACE the repeater row. -/
def hearhamProcessRecord (sourceID : Nat) (now : Int) (db : Database)
    (rep : HearhamRepeater) : Database :=
  let db1 := insertOrIgnoreLocation db rep.city "" "" 0 0 now
  let locationID := (findLocationByKey db1.locations rep.city "" "").map (·.id)
  insertOrReplaceRepeater db1
    (hearhamRepeaterRow db1.nextRepeaterId sourceID rep locationID now)

/-- `Database.SyncHearhamData` (integration.go:222-321): one transaction that
upserts every record in input order and finally updates the hearham row of
`repeater_sources`. -/
def SyncHearhamData (db : Database) (repeaters : List HearhamRepeater)
    (now : Int) : Except String Database :=
  match GetSourceID db "hearham" with
  | .error e => .error ("failed to get hearham source ID: " ++ e)
  | .ok sourceID =>
    let db1 := repeaters.foldl (hearhamProcessRecord sourceID now) db
    .ok (updateRepeaterSource db1 "hearham" now repeaters.length)

/-- `Database.UpsertLocation` (database.go:182-222). When the natural key is
absent, insert a fresh row with the given coordinates. When it is present, run
UPDATE locations SET latitude = ?, longitude = ? WHERE id = ? AND
(latitude = 0 OR longitude = 0 OR ? != 0 AND ? != 0) — SQL precedence groups
the condition as `latitude = 0 ∨ longitude = 0 ∨ (lat ≠ 0 ∧ lng ≠ 0)` over the
stored row and the new arguments — and return the existing id. -/
def UpsertLocation (db : Database) (city state country : String) (lat lng : ℚ)
    (now : Int) : Nat × Database :=
  match findLocationByKey db.locations city state country with
  | none =>
    (db.nextLocationId,
      { db with
        locations := db.locations ++
          [⟨db.nextLocationId, city, state, country, lat, lng, now⟩]
        nextLocationId := db.nextLocationId + 1 })
  | some l =>
    (l.id,
      { db with
        locations := db.locations.map (fun r =>
          if r.id = l.id ∧ (r.latitude = 0 ∨ r.longitude = 0 ∨ (lat ≠ 0 ∧ lng ≠ 0))
          then { r with latitude := lat, longitude := lng }
          else r) })

/-- Distance of a row's tx_frequency from the query frequency, the ORDER BY
ABS(r.tx_frequency - ?) sort measure of `GetRepeatersByFrequency`. -/
def txDistance (frequency : ℚ) (r : RepeaterRow) : ℚ :=
  |r.tx_frequency.getD 0 - frequency|

/-- Insertion step realising ORDER BY ABS(tx_frequency - f) ASC. -/
def insertByDistance (frequency : ℚ) (r : RepeaterRow) :
    List RepeaterRow → List RepeaterRow
  | [] => [r]
  | x :: xs =>
    if txDistance frequency r ≤ txDistance frequency x then r :: x :: xs
    else x :: insertByDistance frequency r xs

/-- Sort realising ORDER BY ABS(tx_frequency - f) ASC. -/
def sortByDistance (frequency : ℚ) (l : List RepeaterRow) : List RepeaterRow :=
  l.foldr (insertByDistance frequency) []

/-- `Database.GetRepeatersByFrequency` (integration.go:326-455). The SQL layer
selects rows with tx_frequency BETWEEN f - r AND f + r (NULL frequencies never
match), orders by ABS(tx_frequency - f) ASC and applies LIMIT; the Go scan loop
then appends each scanned record to the result slice twice (the duplicated
`repeaters = append(repeaters, r)` at integration.go:447 and 451). -/
def GetRepeatersByFrequency (db : Database) (frequency rangeMHz : ℚ)
    (limit : Nat) : List RepeaterRow :=
  let minFreq := frequency - rangeMHz
  let maxFreq := frequency + rangeMHz
  let matching := db.repeaters.filter (fun r =>
    match r.tx_frequency with
    | some tx => decide (minFreq ≤ tx ∧ tx ≤ maxFreq)
    | none => false)
  let limited := (sortByDistance frequency matching).take limit
  limited.flatMap (fun r => [r, r])

/-- The hearham cache ceiling of `loadFromCache` (hearham.go:407): six hours,
in nanoseconds of `time.Duration`. -/
def hearhamCacheCeiling : Int := 6 * 3600 * 1000000000

/-- `HearhamClient.loadFromCache` (hearham.go:395-420). `modTime` is the cache
file's mtime when `os.Stat` succeeds; `parsed` is the JSON-decoded content when
reading and unmarshalling succeed. The load misses (returns `none`) when the
file is absent, when `now - modTime > ceiling`, or when reading/parsing fails;
otherwise it is a hit with the cached records. -/
def loadFromCache (modTime : Option Int)
    (parsed : Option (List HearhamRepeater)) (now : Int) :
    Option (List HearhamRepeater) :=
  match modTime with
  | none => none
  | some t => if now - t > hearhamCacheCeiling then none else parsed

/-- `api.ClientPool` (pool.go:10-16), reduced to what `Initialize` observes:
whether the adapters have been constructed and whether the `sync.Once` body
has already run. -/
structure ClientPool where
  adaptersConstructed : Bool
  onceDone : Bool
deriving DecidableEq, Repr

/-- `ClientPool.Initialize` (pool.go:104-160). `firstInitErr` stands for the
first error the parallel adapter initialization would deliver on the channel
(`none` when all adapters initialize cleanly). The local `initErr` is assigned
only inside `initOnce.Do`; when the once-body is skipped the function returns
the local's zero value `nil`, and the pool stores no record of the first
call's error. -/
def ClientPool.Initialize (p : ClientPool) (firstInitErr : Option String) :
    Option String × ClientPool :=
  if p.onceDone then (none, p)
  else (firstInitErr, { adaptersConstructed := true, onceDone := true })

/-- Results and final pool state of `n` successive `Initialize` calls against
the same underlying adapter outcome. -/
def poolInitCalls (p : ClientPool) (firstInitErr : Option String) :
    Nat → List (Option String) × ClientPool
  | 0 => ([], p)
  | n + 1 =>
    let (r, p1) := p.Initialize firstInitErr
    let (rs, p2) := poolInitCalls p1 firstInitErr n
    (r :: rs, p2)

/-- Loop of `streamBrandmeisterData` (sync_databases_fast.go:485-535): decode
records one by one, skipping any record whose `Decode` fails; flush a full
chunk to `SyncBrandmeisterData` when it reaches `chunkSize`, and flush the
final partial chunk at end of stream; a chunk whose sync fails is dropped with
a warning. Returns (recordsRead, recordsSynced, database). -/
def bmStreamLoop (chunkSize : Nat) (now : Int) (db : Database)
    (chunk : List BrandmeisterRepeater) (recordsRead recordsSynced : Nat) :
    List (Option BrandmeisterRepeater) → Nat × Nat × Database
  | [] =>
    if chunk.length > 0 then
      match SyncBrandmeisterData db chunk now with
      | .ok db1 => (recordsRead, recordsSynced + chunk.length, db1)
      | .error _ => (recordsRead, recordsSynced, db)
    else (recordsRead, recordsSynced, db)
  | item :: rest =>
    match item with
    | none => bmStreamLoop chunkSize now db chunk recordsRead recordsSynced rest
    | some rep =>
      let chunk1 := chunk ++ [rep]
      if chunk1.length ≥ chunkSize then
        match SyncBrandmeisterData db chunk1 now with
        | .ok db1 =>
          bmStreamLoop chunkSize now db1 [] (recordsRead + 1)
            (recordsSynced + chunk1.length) rest
        | .error _ =>
          bmStreamLoop chunkSize now db [] (recordsRead + 1) recordsSynced rest
      else bmStreamLoop chunkSize now db chunk1 (recordsRead + 1) recordsSynced rest

/-- `streamBrandmeisterData` (sync_databases_fast.go:465-538). The envelope is
`none` when the decoder cannot read the opening bracket of the top-level JSON
array (the fetch then fails as a whole); otherwise it is the stream of
individual record decode outcomes, `none` marking a record whose `Decode`
fails (skipped with a warning). -/
def streamBrandmeisterData (db : Database)
    (envelope : Option (List (Option BrandmeisterRepeater)))
    (chunkSize : Nat) (now : Int) : Except String (Nat × Nat × Database) :=
  match envelope with
  | none => .error "expected opening bracket"
  | some items => .ok (bmStreamLoop chunkSize now db [] 0 0 items)

/-- The decode step of `HearhamClient.fetchAllData` (hearham.go:210-215):
one `json.Unmarshal` of the whole body into `[]HearhamRepeater`. An unreadable
top-level value is an error; and because `fetchAllData` treats any non-nil
unmarshal error as fatal, a single record that fails to decode (a type
mismatch inside an otherwise valid array) also fails the whole batch. -/
def hearhamFetchDecode (body : Option (List (Option HearhamRepeater))) :
    Except String (List HearhamRepeater) :=
  match body with
  | none => .error "failed to decode JSON response"
  | some items =>
    if items.all Option.isSome then .ok (items.filterMap id)
    else .error "failed to decode JSON response"

/-- Outcome of probing one candidate endpoint: HTTP 200 with a parseable body,
or one of the non-fatal failures (404, 401, another status, transport error,
unparseable body). -/
inductive EndpointOutcome where
  | ok (records : List BrandmeisterRepeater)
  | notFound
  | unauthorized
  | badStatus (code : Int)
  | transportError
  | parseError
deriving DecidableEq, Repr

/-- Whether the endpoint probe succeeded (HTTP 200 and a parseable body). -/
def EndpointOutcome.isOk : EndpointOutcome → Bool
  | .ok _ => true
  | _ => false

/-- Modelled from the spec: the multi-endpoint fetch of the network-repeater
adapter (`BrandmeisterClient.refreshData`), whose source file is not among the
embedded sources. Per the spec's retry policy, the adapter tries the candidate
endpoint paths in a fixed priority order, uses the first that returns HTTP 200
with a parseable body, treats 404/401 and other per-endpoint failures as
non-fatal, and fails with an all-endpoints-failed error only after every
candidate has been exhausted. -/
def tryEndpoints : List EndpointOutcome → Except String (List BrandmeisterRepeater)
  | [] => .error "all API endpoints failed"
  | o :: rest =>
    match o with
    | .ok records => .ok records
    | _ => tryEndpoints rest

/-! ### Invariants and basic observations -/

/-- Rows of a repeaters table carrying a given (source_id, external_id) key. -/
def rowsForKey (reps : List RepeaterRow) (k : Nat × String) : List RepeaterRow :=
  reps.filter (fun r => repeaterKey r == k)

/-- The UNIQUE(source_id, external_id) invariant: no two rows share a key. -/
def NoDupKeys (reps : List RepeaterRow) : Prop :=
  reps.Pairwise (fun a b => repeaterKey a ≠ repeaterKey b)

/-- The UNIQUE(city, state, country) invariant of the locations table. -/
def NKInv (locs : List LocationRow) : Prop :=
  locs.Pairwise (fun a b => (a.city, a.state, a.country) ≠ (b.city, b.state, b.country))

instance (reps : List RepeaterRow) : Decidable (NoDupKeys reps) := by
  unfold NoDupKeys; infer_instance

instance (locs : List LocationRow) : Decidable (NKInv locs) := by
  unfold NKInv; infer_instance

/-- Identity key of a Brandmeister record in the repeaters table: the source id
paired with the TEXT rendering of the provider id. -/
def bmKey (sourceID : Nat) (rep : BrandmeisterRepeater) : Nat × String :=
  (sourceID, toString rep.id)

theorem repeaterKey_bmRepeaterRow (id sourceID rep locationID now) :
    repeaterKey (bmRepeaterRow id sourceID rep locationID now) = bmKey sourceID rep := rfl

theorem repeaterKey_hearhamRepeaterRow (id sourceID rep locationID now) :
    repeaterKey (hearhamRepeaterRow id sourceID rep locationID now) =
      (sourceID, rep.callsign) := rfl

theorem rowsForKey_nil (k) : rowsForKey [] k = [] := rfl

theorem rowsForKey_append (l₁ l₂ : List RepeaterRow) (k) :
    rowsForKey (l₁ ++ l₂) k = rowsForKey l₁ k ++ rowsForKey l₂ k :=
  List.filter_append ..

theorem rowsForKey_eq_nil_of_forall {l : List RepeaterRow} {k}
    (h : ∀ r ∈ l, repeaterKey r ≠ k) : rowsForKey l k = [] := by
  unfold rowsForKey
  exact List.filter_eq_nil_iff.mpr (fun r hr => by simpa using h r hr)

theorem filter_key_upsert (row : RepeaterRow) (k : Nat × String)
    (l : List RepeaterRow) :
    ((l.filter (fun r => !(repeaterKey r == repeaterKey row))) ++ [row]).filter
        (fun r => repeaterKey r == k) =
      if repeaterKey row = k then [row] else l.filter (fun r => repeaterKey r == k) := by
  induction l with
  | nil =>
    by_cases hk : repeaterKey row = k <;> simp [hk]
  | cons x xs ih =>
    by_cases hx : repeaterKey x = repeaterKey row
    · have h1 : (x :: xs).filter (fun r => !(repeaterKey r == repeaterKey row)) =
          xs.filter (fun r => !(repeaterKey r == repeaterKey row)) := by
        simp [List.filter_cons, hx]
      rw [h1, ih]
      by_cases hk : repeaterKey row = k
      · rw [if_pos hk, if_pos hk]
      · rw [if_neg hk, if_neg hk]
        have h2 : (x :: xs).filter (fun r => repeaterKey r == k) =
            xs.filter (fun r => repeaterKey r == k) := by
          simp [List.filter_cons, hx, hk]
        rw [h2]
    · have h1 : (x :: xs).filter (fun r => !(repeaterKey r == repeaterKey row)) =
          x :: xs.filter (fun r => !(repeaterKey r == repeaterKey row)) := by
        simp [List.filter_cons, hx]
      rw [h1, List.cons_append, List.filter_cons]
      by_cases hxk : repeaterKey x = k
      · have hk : ¬ repeaterKey row = k := fun h => hx (hxk.trans h.symm)
        rw [if_pos (by simpa using hxk), ih, if_neg hk, if_neg hk]
        simp [List.filter_cons, hxk]
      · rw [if_neg (by simpa using hxk), ih]
        by_cases hk : repeaterKey row = k
        · rw [if_pos hk, if_pos hk]
        · rw [if_neg hk, if_neg hk]
          have h2 : (x :: xs).filter (fun r => repeaterKey r == k) =
              xs.filter (fun r => repeaterKey r == k) := by
            simp [List.filter_cons, hxk]
          rw [h2]

/-- Effect of INSERT OR REPLACE on the rows for a key: the new row's key now
holds exactly the new row; every other key is untouched. -/
theorem rowsForKey_insertOrReplaceRepeater (db : Database) (row : RepeaterRow) (k) :
    rowsForKey (insertOrReplaceRepeater db row).repeaters k =
      if repeaterKey row = k then [row] else rowsForKey db.repeaters k := by
  unfold insertOrReplaceRepeater rowsForKey
  exact filter_key_upsert row k db.repeaters

/-- A repeaters table holds some row with the given key. -/
def HasKey (reps : List RepeaterRow) (k : Nat × String) : Prop :=
  ∃ r ∈ reps, repeaterKey r = k

theorem HasKey_insertOrReplaceRepeater (db : Database) (row : RepeaterRow) (k) :
    HasKey (insertOrReplaceRepeater db row).repeaters k ↔
      k = repeaterKey row ∨ HasKey db.repeaters k := by
  unfold HasKey insertOrReplaceRepeater
  constructor
  · rintro ⟨r, hr, hk⟩
    rcases List.mem_append.mp hr with hmem | hmem
    · exact Or.inr ⟨r, (List.mem_filter.mp hmem).1, hk⟩
    · simp only [List.mem_singleton] at hmem
      exact Or.inl (hk ▸ hmem ▸ rfl)
  · rintro (rfl | ⟨r, hr, hk⟩)
    · exact ⟨row, List.mem_append.mpr (Or.inr (by simp)), rfl⟩
    · by_cases hrow : repeaterKey r = repeaterKey row
      · exact ⟨row, List.mem_append.mpr (Or.inr (by simp)), by rw [← hk, hrow]⟩
      · refine ⟨r, List.mem_append.mpr (Or.inl (List.mem_filter.mpr ⟨hr, ?_⟩)), hk⟩
        simp [hrow]

theorem NoDupKeys_insertOrReplaceRepeater (db : Database) (row : RepeaterRow)
    (h : NoDupKeys db.repeaters) : NoDupKeys (insertOrReplaceRepeater db row).repeaters := by
  unfold NoDupKeys insertOrReplaceRepeater
  refine List.pairwise_append.mpr ⟨h.sublist (List.filter_sublist _), by simp, ?_⟩
  intro a ha b hb
  simp only [List.mem_singleton] at hb
  subst hb
  have := (List.mem_filter.mp ha).2
  simpa using this

theorem length_filter_ne_of_hasKey (row : RepeaterRow) :
    ∀ l : List RepeaterRow, NoDupKeys l → HasKey l (repeaterKey row) →
    (l.filter (fun r => !(repeaterKey r == repeaterKey row))).length + 1 = l.length := by
  intro l
  induction l with
  | nil => rintro _ ⟨r, hr, _⟩; cases hr
  | cons x xs ih =>
    intro hnd hk
    have hx2 : ∀ b ∈ xs, repeaterKey x ≠ repeaterKey b :=
      fun b hb => List.rel_of_pairwise_cons hnd hb
    by_cases hx : repeaterKey x = repeaterKey row
    · have hnone : xs.filter (fun r => !(repeaterKey r == repeaterKey row)) = xs := by
        apply List.filter_eq_self.mpr
        intro b hb
        have hxb : repeaterKey x ≠ repeaterKey b := hx2 b hb
        have hbr : repeaterKey b ≠ repeaterKey row := fun h => hxb (hx.trans h.symm)
        simp [hbr]
      simp [List.filter_cons, hx, hnone]
    · rcases hk with ⟨r, hr, hkr⟩
      rcases List.mem_cons.mp hr with rfl | hrxs
      · exact absurd hkr hx
      · have hrec := ih (List.Pairwise.of_cons hnd) ⟨r, hrxs, hkr⟩
        have hfc : (x :: xs).filter (fun r => !(repeaterKey r == repeaterKey row)) =
            x :: xs.filter (fun r => !(repeaterKey r == repeaterKey row)) := by
          simp [List.filter_cons, hx]
        rw [hfc]
        simp only [List.length_cons]
        omega

theorem length_insertOrReplaceRepeater_of_hasKey (db : Database) (row : RepeaterRow)
    (hnd : NoDupKeys db.repeaters) (hk : HasKey db.repeaters (repeaterKey row)) :
    (insertOrReplaceRepeater db row).repeaters.length = db.repeaters.length := by
  unfold insertOrReplaceRepeater
  simp only [List.length_append, List.length_singleton]
  exact length_filter_ne_of_hasKey row db.repeaters hnd hk

/-! ### Component lemmas for the Brandmeister sync step -/

theorem insertOrIgnoreLocation_repeaters (db city state country lat lng now) :
    (insertOrIgnoreLocation db city state country lat lng now).repeaters = db.repeaters := by
  unfold insertOrIgnoreLocation
  cases findLocationByKey db.locations city state country <;> rfl

theorem insertOrIgnoreLocation_nextRepeaterId (db city state country lat lng now) :
    (insertOrIgnoreLocation db city state country lat lng now).nextRepeaterId =
      db.nextRepeaterId := by
  unfold insertOrIgnoreLocation
  cases findLocationByKey db.locations city state country <;> rfl

theorem insertOrIgnoreLocation_sources (db city state country lat lng now) :
    (insertOrIgnoreLocation db city state country lat lng now).repeater_sources =
      db.repeater_sources := by
  unfold insertOrIgnoreLocation
  cases findLocationByKey db.locations city state country <;> rfl

theorem insertOrIgnoreLocation_talkgroups (db city state country lat lng now) :
    (insertOrIgnoreLocation db city state country lat lng now).talkgroups =
      db.talkgroups := by
  unfold insertOrIgnoreLocation
  cases findLocationByKey db.locations city state country <;> rfl

theorem insertOrIgnoreLocation_locations_append (db city state country lat lng now) :
    ∃ tail, (insertOrIgnoreLocation db city state country lat lng now).locations =
      db.locations ++ tail := by
  unfold insertOrIgnoreLocation
  cases findLocationByKey db.locations city state country with
  | none => exact ⟨_, rfl⟩
  | some _ => exact ⟨[], by simp⟩

theorem bmProcessLocation_repeaters (s rep now) :
    (bmProcessLocation s rep now).2.db.repeaters = s.db.repeaters := by
  unfold bmProcessLocation
  split
  · rfl
  · split
    · split <;> simp [insertOrIgnoreLocation_repeaters]
    · rfl

theorem bmProcessLocation_nextRepeaterId (s rep now) :
    (bmProcessLocation s rep now).2.db.nextRepeaterId = s.db.nextRepeaterId := by
  unfold bmProcessLocation
  split
  · rfl
  · split
    · split <;> simp [insertOrIgnoreLocation_nextRepeaterId]
    · rfl

theorem bmProcessLocation_sources (s rep now) :
    (bmProcessLocation s rep now).2.db.repeater_sources = s.db.repeater_sources := by
  unfold bmProcessLocation
  split
  · rfl
  · split
    · split <;> simp [insertOrIgnoreLocation_sources]
    · rfl

theorem bmProcessLocation_talkgroups (s rep now) :
    (bmProcessLocation s rep now).2.db.talkgroups = s.db.talkgroups := by
  unfold bmProcessLocation
  split
  · rfl
  · split
    · split <;> simp [insertOrIgnoreLocation_talkgroups]
    · rfl

theorem bmProcessLocation_locations_append (s rep now) :
    ∃ tail, (bmProcessLocation s rep now).2.db.locations = s.db.locations ++ tail := by
  obtain ⟨tail, htail⟩ := insertOrIgnoreLocation_locations_append s.db rep.city "" rep.country
    rep.latitude rep.longitude now
  unfold bmProcessLocation
  split
  · exact ⟨[], by simp⟩
  · split
    · split <;> exact ⟨tail, htail⟩
    · exact ⟨[], by simp⟩

/-- Unfolding of one Brandmeister record step in terms of its two phases. -/
theorem bmProcessRecord_def (sourceID now s rep) :
    bmProcessRecord sourceID now s rep =
      ⟨insertOrReplaceRepeater (bmProcessLocation s rep now).2.db
        (bmRepeaterRow (bmProcessLocation s rep now).2.db.nextRepeaterId sourceID rep
          (bmProcessLocation s rep now).1 now),
       (bmProcessLocation s rep now).2.locationCache⟩ := rfl

theorem rowsForKey_bmProcessRecord (sourceID now s rep k) :
    rowsForKey (bmProcessRecord sourceID now s rep).db.repeaters k =
      if bmKey sourceID rep = k
      then [bmRepeaterRow (bmProcessLocation s rep now).2.db.nextRepeaterId sourceID rep
        (bmProcessLocation s rep now).1 now]
      else rowsForKey s.db.repeaters k := by
  rw [bmProcessRecord_def]
  simp only [rowsForKey_insertOrReplaceRepeater, repeaterKey_bmRepeaterRow,
    bmProcessLocation_repeaters]

theorem insertOrReplaceRepeater_sources (db row) :
    (insertOrReplaceRepeater db row).repeater_sources = db.repeater_sources := rfl

theorem insertOrReplaceRepeater_talkgroups (db row) :
    (insertOrReplaceRepeater db row).talkgroups = db.talkgroups := rfl

theorem insertOrReplaceRepeater_locations (db row) :
    (insertOrReplaceRepeater db row).locations = db.locations := rfl

theorem bmProcessRecord_repeaters (sourceID now s rep) :
    (bmProcessRecord sourceID now s rep).db.repeaters =
      (insertOrReplaceRepeater (bmProcessLocation s rep now).2.db
        (bmRepeaterRow (bmProcessLocation s rep now).2.db.nextRepeaterId sourceID rep
          (bmProcessLocation s rep now).1 now)).repeaters := by
  rw [bmProcessRecord_def]

theorem bmProcessRecord_locations (sourceID now s rep) :
    (bmProcessRecord sourceID now s rep).db.locations =
      (bmProcessLocation s rep now).2.db.locations := by
  rw [bmProcessRecord_def, insertOrReplaceRepeater_locations]

theorem bmProcessRecord_sources (sourceID now s rep) :
    (bmProcessRecord sourceID now s rep).db.repeater_sources = s.db.repeater_sources := by
  rw [bmProcessRecord_def, insertOrReplaceRepeater_sources, bmProcessLocation_sources]

theorem bmProcessRecord_talkgroups (sourceID now s rep) :
    (bmProcessRecord sourceID now s rep).db.talkgroups = s.db.talkgroups := by
  rw [bmProcessRecord_def, insertOrReplaceRepeater_talkgroups, bmProcessLocation_talkgroups]

/-! ### Fold lemmas for the Brandmeister batch loop -/

theorem bmFold_rowsForKey_frame (sourceID : Nat) (now : Int) (k : Nat × String) :
    ∀ (reps : List BrandmeisterRepeater) (s : BmSyncState),
    (∀ rep ∈ reps, bmKey sourceID rep ≠ k) →
    rowsForKey ((reps.foldl (bmProcessRecord sourceID now) s)).db.repeaters k =
      rowsForKey s.db.repeaters k
  | [], _, _ => rfl
  | rep :: rest, s, h => by
    rw [List.foldl_cons,
      bmFold_rowsForKey_frame sourceID now k rest _ (fun r hr => h r (by simp [hr])),
      rowsForKey_bmProcessRecord, if_neg (h rep (by simp))]

theorem bmFold_NoDupKeys (sourceID : Nat) (now : Int) :
    ∀ (reps : List BrandmeisterRepeater) (s : BmSyncState),
    NoDupKeys s.db.repeaters →
    NoDupKeys ((reps.foldl (bmProcessRecord sourceID now) s)).db.repeaters
  | [], _, h => h
  | rep :: rest, s, h => by
    rw [List.foldl_cons]
    apply bmFold_NoDupKeys sourceID now rest
    rw [bmProcessRecord_def]
    exact NoDupKeys_insertOrReplaceRepeater _ _ (by rw [bmProcessLocation_repeaters]; exact h)

theorem HasKey_bmProcessRecord_mono (sourceID now s rep k)
    (h : HasKey s.db.repeaters k) :
    HasKey (bmProcessRecord sourceID now s rep).db.repeaters k := by
  rw [bmProcessRecord_def]
  exact (HasKey_insertOrReplaceRepeater _ _ _).mpr
    (Or.inr (by rw [bmProcessLocation_repeaters]; exact h))

theorem bmFold_hasKey_mono (sourceID : Nat) (now : Int) (k : Nat × String) :
    ∀ (reps : List BrandmeisterRepeater) (s : BmSyncState),
    HasKey s.db.repeaters k →
    HasKey ((reps.foldl (bmProcessRecord sourceID now) s)).db.repeaters k
  | [], _, h => h
  | rep :: rest, s, h => by
    rw [List.foldl_cons]
    exact bmFold_hasKey_mono sourceID now k rest _
      (HasKey_bmProcessRecord_mono sourceID now s rep k h)

theorem bmFold_hasKey_batch (sourceID : Nat) (now : Int) :
    ∀ (reps : List BrandmeisterRepeater) (s : BmSyncState) (rep : BrandmeisterRepeater),
    rep ∈ reps →
    HasKey ((reps.foldl (bmProcessRecord sourceID now) s)).db.repeaters (bmKey sourceID rep)
  | [], _, _, h => absurd h (List.not_mem_nil _)
  | r0 :: rest, s, rep, h => by
    rw [List.foldl_cons]
    rcases List.mem_cons.mp h with rfl | hrest
    · apply bmFold_hasKey_mono
      rw [bmProcessRecord_def]
      exact (HasKey_insertOrReplaceRepeater _ _ _).mpr (Or.inl rfl)
    · exact bmFold_hasKey_batch sourceID now rest _ rep hrest

theorem bmFold_length (sourceID : Nat) (now : Int) :
    ∀ (reps : List BrandmeisterRepeater) (s : BmSyncState),
    NoDupKeys s.db.repeaters →
    (∀ rep ∈ reps, HasKey s.db.repeaters (bmKey sourceID rep)) →
    ((reps.foldl (bmProcessRecord sourceID now) s)).db.repeaters.length =
      s.db.repeaters.length
  | [], _, _, _ => rfl
  | rep :: rest, s, hnd, hk => by
    rw [List.foldl_cons]
    have hstep : (bmProcessRecord sourceID now s rep).db.repeaters.length =
        s.db.repeaters.length := by
      rw [bmProcessRecord_def]
      rw [length_insertOrReplaceRepeater_of_hasKey]
      · rw [bmProcessLocation_repeaters]
      · rw [bmProcessLocation_repeaters]; exact hnd
      · rw [bmProcessLocation_repeaters, repeaterKey_bmRepeaterRow]
        exact hk rep (by simp)
    rw [bmFold_length sourceID now rest _ ?_ ?_, hstep]
    · rw [bmProcessRecord_def]
      exact NoDupKeys_insertOrReplaceRepeater _ _ (by rw [bmProcessLocation_repeaters]; exact hnd)
    · intro r hr
      exact HasKey_bmProcessRecord_mono sourceID now s rep _ (hk r (by simp [hr]))

theorem bmFold_sources (sourceID : Nat) (now : Int) :
    ∀ (reps : List BrandmeisterRepeater) (s : BmSyncState),
    ((reps.foldl (bmProcessRecord sourceID now) s)).db.repeater_sources =
      s.db.repeater_sources
  | [], _ => rfl
  | rep :: rest, s => by
    rw [List.foldl_cons, bmFold_sources sourceID now rest, bmProcessRecord_sources]

theorem bmFold_talkgroups (sourceID : Nat) (now : Int) :
    ∀ (reps : List BrandmeisterRepeater) (s : BmSyncState),
    ((reps.foldl (bmProcessRecord sourceID now) s)).db.talkgroups = s.db.talkgroups
  | [], _ => rfl
  | rep :: rest, s => by
    rw [List.foldl_cons, bmFold_talkgroups sourceID now rest, bmProcessRecord_talkgroups]

theorem bmFold_locations_append (sourceID : Nat) (now : Int) :
    ∀ (reps : List BrandmeisterRepeater) (s : BmSyncState),
    ∃ tail, ((reps.foldl (bmProcessRecord sourceID now) s)).db.locations =
      s.db.locations ++ tail
  | [], _ => ⟨[], by simp⟩
  | rep :: rest, s => by
    rw [List.foldl_cons]
    obtain ⟨t1, h1⟩ := bmProcessLocation_locations_append s rep now
    obtain ⟨t2, h2⟩ := bmFold_locations_append sourceID now rest
      (bmProcessRecord sourceID now s rep)
    refine ⟨t1 ++ t2, ?_⟩
    rw [h2, bmProcessRecord_locations, h1, List.append_assoc]

/-! ### Location resolution against the final table -/

theorem NKInv_insertOrIgnoreLocation (db city state country lat lng now)
    (h : NKInv db.locations) :
    NKInv (insertOrIgnoreLocation db city state country lat lng now).locations := by
  unfold insertOrIgnoreLocation
  cases hfind : findLocationByKey db.locations city state country with
  | some _ => exact h
  | none =>
    refine List.pairwise_append.mpr ⟨h, by simp, ?_⟩
    intro a ha b hb
    simp only [List.mem_singleton] at hb
    subst hb
    intro hcontra
    have h1 : a.city = city := congrArg (·.1) hcontra
    have h2 : a.state = state := congrArg (·.2.1) hcontra
    have h3 : a.country = country := congrArg (·.2.2) hcontra
    apply List.find?_eq_none.mp hfind a ha
    simp [h1, h2, h3]

theorem findLocationByKey_append_some {l Δ city state country w}
    (h : findLocationByKey l city state country = some w) :
    findLocationByKey (l ++ Δ) city state country = some w := by
  unfold findLocationByKey at *
  rw [List.find?_append, h, Option.or]

theorem lookupLocationExact_append_some {l Δ city state country lat lng id}
    (h : lookupLocationExact l city state country lat lng = some id) :
    lookupLocationExact (l ++ Δ) city state country lat lng = some id := by
  unfold lookupLocationExact at *
  cases hfind : List.find? (fun x => x.city == city && x.state == state &&
      x.country == country && x.latitude == lat && x.longitude == lng) l with
  | none => rw [hfind] at h; cases h
  | some w =>
    rw [hfind] at h
    rw [List.find?_append, hfind, Option.or]
    exact h

/-- Under the natural-key uniqueness invariant, the five-column location lookup
factors through the natural-key lookup: it succeeds exactly when the (unique)
row with the natural key also carries the queried coordinates. -/
theorem lookupLocationExact_eq_of_NKInv {city state country : String} {lat lng : ℚ} :
    ∀ {locs : List LocationRow}, NKInv locs →
    lookupLocationExact locs city state country lat lng =
      (match findLocationByKey locs city state country with
       | some w => if w.latitude = lat ∧ w.longitude = lng then some w.id else none
       | none => none) := by
  intro locs
  induction locs with
  | nil => intro _; rfl
  | cons x xs ih =>
    intro hNK
    by_cases hx : x.city = city ∧ x.state = state ∧ x.country = country
    · have hfind : findLocationByKey (x :: xs) city state country = some x := by
        unfold findLocationByKey
        exact List.find?_cons_of_pos _ (by simp [hx.1, hx.2.1, hx.2.2])
      rw [hfind]
      by_cases hcoord : x.latitude = lat ∧ x.longitude = lng
      · have hsome : lookupLocationExact (x :: xs) city state country lat lng = some x.id := by
          unfold lookupLocationExact
          rw [List.find?_cons_of_pos _ (by simp [hx.1, hx.2.1, hx.2.2, hcoord.1, hcoord.2])]
          rfl
        rw [hsome]
        simp [hcoord.1, hcoord.2]
      · have hxfalse5 : ¬(x.city == city && x.state == state && x.country == country
            && x.latitude == lat && x.longitude == lng) = true := by
          simp only [Bool.and_eq_true, beq_iff_eq]
          rintro ⟨⟨_, h4⟩, h5⟩
          exact hcoord ⟨h4, h5⟩
        have hrest : List.find? (fun l => l.city == city && l.state == state &&
            l.country == country && l.latitude == lat && l.longitude == lng) xs = none := by
          apply List.find?_eq_none.mpr
          intro a ha
          have hne := List.rel_of_pairwise_cons hNK ha
          simp only [Bool.and_eq_true, beq_iff_eq]
          rintro ⟨⟨⟨⟨h1, h2⟩, h3⟩, _⟩, _⟩
          exact hne (by rw [hx.1, hx.2.1, hx.2.2, h1, h2, h3])
        have hnone : lookupLocationExact (x :: xs) city state country lat lng = none := by
          unfold lookupLocationExact
          rw [@List.find?_cons_of_neg _ (fun l => l.city == city && l.state == state &&
            l.country == country && l.latitude == lat && l.longitude == lng) x xs hxfalse5, hrest]
          rfl
        rw [hnone]
        simp [hcoord]
    · have hxfalse : ¬(x.city == city && x.state == state && x.country == country) = true := by
        simp only [Bool.and_eq_true, beq_iff_eq]
        rintro ⟨⟨h1, h2⟩, h3⟩
        exact hx ⟨h1, h2, h3⟩
      have hxfalse5 : ¬(x.city == city && x.state == state && x.country == country
          && x.latitude == lat && x.longitude == lng) = true := by
        simp only [Bool.and_eq_true, beq_iff_eq]
        rintro ⟨⟨⟨⟨h1, h2⟩, h3⟩, _⟩, _⟩
        exact hx ⟨h1, h2, h3⟩
      have hfind : findLocationByKey (x :: xs) city state country =
          findLocationByKey xs city state country := by
        unfold findLocationByKey
        exact List.find?_cons_of_neg _ hxfalse
      have hlook : lookupLocationExact (x :: xs) city state country lat lng =
          lookupLocationExact xs city state country lat lng := by
        unfold lookupLocationExact
        rw [@List.find?_cons_of_neg _ (fun l => l.city == city && l.state == state &&
          l.country == country && l.latitude == lat && l.longitude == lng) x xs hxfalse5]
      rw [hfind, hlook, ih (List.Pairwise.of_cons hNK)]

/-- The location id that the Brandmeister sync's resolution yields for a
record, expressed against a location table: none unless the record has a
non-trivial location, else the five-column lookup. -/
def bmFinalResolve (locs : List LocationRow) (rep : BrandmeisterRepeater) : Option Nat :=
  if bmLocCond rep then
    lookupLocationExact locs rep.city "" rep.country rep.latitude rep.longitude
  else none

/-- After a record's own sync step, a row with its natural key exists whenever
the record has a non-trivial location; from then on the five-column lookup can
no longer change, because locations are only ever appended and never mutated. -/
def locKeySettled (locs : List LocationRow) (rep : BrandmeisterRepeater) : Prop :=
  bmLocCond rep → (findLocationByKey locs rep.city "" rep.country).isSome

theorem locKeySettled_append {locs Δ rep} (h : locKeySettled locs rep) :
    locKeySettled (locs ++ Δ) rep := by
  intro hc
  obtain ⟨w, hw⟩ := Option.isSome_iff_exists.mp (h hc)
  rw [findLocationByKey_append_some hw]
  rfl

theorem bmFinalResolve_append {locs Δ : List LocationRow} {rep}
    (hNK2 : NKInv (locs ++ Δ)) (hs : locKeySettled locs rep) :
    bmFinalResolve (locs ++ Δ) rep = bmFinalResolve locs rep := by
  unfold bmFinalResolve
  by_cases hc : bmLocCond rep
  · rw [if_pos hc, if_pos hc]
    have hNK1 : NKInv locs := by
      unfold NKInv at *
      exact hNK2.sublist (List.sublist_append_left _ _)
    obtain ⟨w, hw⟩ := Option.isSome_iff_exists.mp (hs hc)
    rw [lookupLocationExact_eq_of_NKInv hNK1, lookupLocationExact_eq_of_NKInv hNK2,
      hw, findLocationByKey_append_some hw]
  · rw [if_neg hc, if_neg hc]

/-- Coherence of the in-memory location cache: every cached entry was recorded
from a successful five-column lookup over a table that only grows, so the
lookup still returns the cached id, and only non-trivial locations are cached. -/
def CacheCoh (s : BmSyncState) : Prop :=
  ∀ p ∈ s.locationCache,
    (p.1.city ≠ "" ∨ p.1.country ≠ "" ∨ p.1.latitude ≠ 0 ∨ p.1.longitude ≠ 0) ∧
    lookupLocationExact s.db.locations p.1.city p.1.state p.1.country
      p.1.latitude p.1.longitude = some p.2

theorem mem_of_lookup_eq_some {α β : Type} [BEq α] [LawfulBEq α] {k : α} {v : β} :
    ∀ {l : List (α × β)}, List.lookup k l = some v → (k, v) ∈ l := by
  intro l
  induction l with
  | nil => intro h; cases h
  | cons p t ih =>
    intro h
    rw [List.lookup_cons] at h
    by_cases hk : (k == p.1) = true
    · rw [hk] at h
      have hv : p.2 = v := by injection h
      have hkeq : k = p.1 := by simpa using hk
      exact List.mem_cons.mpr (Or.inl (by rw [hkeq, ← hv]))
    · have hkf : (k == p.1) = false := by simpa using hk
      rw [hkf] at h
      exact List.mem_cons.mpr (Or.inr (ih h))

theorem isSome_findLocationByKey_of_lookupExact {locs city state country lat lng id}
    (h : lookupLocationExact locs city state country lat lng = some id) :
    (findLocationByKey locs city state country).isSome := by
  unfold lookupLocationExact at h
  unfold findLocationByKey
  obtain ⟨w, hw, -⟩ := Option.map_eq_some'.mp h
  have hmem := List.mem_of_find?_eq_some hw
  have hpred := List.find?_some hw
  simp only [Bool.and_eq_true, beq_iff_eq] at hpred
  apply Option.isSome_iff_exists.mpr
  have : ∃ x ∈ locs, (x.city == city && x.state == state && x.country == country) = true := by
    exact ⟨w, hmem, by simp [hpred.1.1.1.1, hpred.1.1.1.2, hpred.1.1.2]⟩
  obtain ⟨x, hx⟩ := List.find?_isSome.mpr this |> Option.isSome_iff_exists.mp
  exact ⟨x, hx⟩

/-- The full specification of one location-resolution step: invariants are
preserved, the record's natural key becomes settled, and the id handed to the
repeater INSERT equals the resolution against the step's output table. -/
theorem bmProcessLocation_spec (s : BmSyncState) (rep : BrandmeisterRepeater) (now : Int)
    (hNK : NKInv s.db.locations) (hCC : CacheCoh s) :
    NKInv (bmProcessLocation s rep now).2.db.locations ∧
    CacheCoh (bmProcessLocation s rep now).2 ∧
    locKeySettled (bmProcessLocation s rep now).2.db.locations rep ∧
    (bmProcessLocation s rep now).1 =
      bmFinalResolve (bmProcessLocation s rep now).2.db.locations rep := by
  unfold bmProcessLocation
  split
  case h_1 cachedID heq =>
    have hmem := mem_of_lookup_eq_some heq
    obtain ⟨hcond, hlook⟩ := hCC _ hmem
    simp only [bmLocationKey] at hcond hlook
    have hbm : bmLocCond rep := hcond
    refine ⟨hNK, hCC, ?_, ?_⟩
    · intro _
      exact isSome_findLocationByKey_of_lookupExact hlook
    · rw [bmFinalResolve, if_pos hbm, hlook]
  case h_2 heq =>
    split
    case isTrue hc =>
      have hNK1 : NKInv (insertOrIgnoreLocation s.db rep.city "" rep.country
          rep.latitude rep.longitude now).locations :=
        NKInv_insertOrIgnoreLocation s.db rep.city "" rep.country rep.latitude
          rep.longitude now hNK
      obtain ⟨tail, htail⟩ := insertOrIgnoreLocation_locations_append s.db rep.city ""
        rep.country rep.latitude rep.longitude now
      have hsettled : locKeySettled (insertOrIgnoreLocation s.db rep.city "" rep.country
          rep.latitude rep.longitude now).locations rep := by
        intro _
        unfold insertOrIgnoreLocation
        cases hfind : findLocationByKey s.db.locations rep.city "" rep.country with
        | some w => rw [hfind]; rfl
        | none =>
          simp only
          unfold findLocationByKey at *
          rw [List.find?_append, hfind]
          simp [Option.or]
      have hCC1 : ∀ p ∈ s.locationCache,
          (p.1.city ≠ "" ∨ p.1.country ≠ "" ∨ p.1.latitude ≠ 0 ∨ p.1.longitude ≠ 0) ∧
          lookupLocationExact (insertOrIgnoreLocation s.db rep.city "" rep.country
            rep.latitude rep.longitude now).locations p.1.city p.1.state p.1.country
            p.1.latitude p.1.longitude = some p.2 := by
        intro p hp
        obtain ⟨h1, h2⟩ := hCC p hp
        exact ⟨h1, by rw [htail]; exact lookupLocationExact_append_some h2⟩
      split
      case h_1 locID hlook =>
        refine ⟨hNK1, ?_, hsettled, ?_⟩
        · intro p hp
          rcases List.mem_cons.mp hp with rfl | hp2
          · exact ⟨hc, hlook⟩
          · exact hCC1 p hp2
        · rw [bmFinalResolve, if_pos hc, hlook]
      case h_2 hlook =>
        refine ⟨hNK1, fun p hp => hCC1 p hp, hsettled, ?_⟩
        rw [bmFinalResolve, if_pos hc, hlook]
    case isFalse hc =>
      refine ⟨hNK, hCC, fun h => absurd h hc, ?_⟩
      rw [bmFinalResolve, if_neg hc]

theorem CacheCoh_bmProcessRecord (sourceID now s rep)
    (h : CacheCoh (bmProcessLocation s rep now).2) :
    CacheCoh (bmProcessRecord sourceID now s rep) := by
  rw [bmProcessRecord_def]
  intro p hp
  obtain ⟨h1, h2⟩ := h p hp
  exact ⟨h1, by rw [insertOrReplaceRepeater_locations]; exact h2⟩

/-- Invariant preservation over the whole Brandmeister batch loop: the
location table keeps unique natural keys, the in-memory cache stays coherent,
and the natural key of every processed record is present at the end. -/
theorem bmFold_inv (sourceID : Nat) (now : Int) :
    ∀ (reps : List BrandmeisterRepeater) (s : BmSyncState),
    NKInv s.db.locations → CacheCoh s →
    NKInv ((reps.foldl (bmProcessRecord sourceID now) s)).db.locations ∧
    CacheCoh ((reps.foldl (bmProcessRecord sourceID now) s)) ∧
    ∀ rep ∈ reps,
      locKeySettled ((reps.foldl (bmProcessRecord sourceID now) s)).db.locations rep
  | [], _, h1, h2 => ⟨h1, h2, by simp⟩
  | rep :: rest, s, h1, h2 => by
    rw [List.foldl_cons]
    obtain ⟨hNK1, hCC1, hset1, -⟩ := bmProcessLocation_spec s rep now h1 h2
    have hNK2 : NKInv (bmProcessRecord sourceID now s rep).db.locations := by
      rw [bmProcessRecord_locations]; exact hNK1
    have hCC2 : CacheCoh (bmProcessRecord sourceID now s rep) :=
      CacheCoh_bmProcessRecord sourceID now s rep hCC1
    obtain ⟨hNKf, hCCf, hsetf⟩ := bmFold_inv sourceID now rest _ hNK2 hCC2
    refine ⟨hNKf, hCCf, ?_⟩
    intro r hr
    rcases List.mem_cons.mp hr with rfl | hr2
    · obtain ⟨tail, htail⟩ := bmFold_locations_append sourceID now rest
        (bmProcessRecord sourceID now s r)
      rw [htail]
      apply locKeySettled_append
      rw [bmProcessRecord_locations]
      exact hset1
    · exact hsetf r hr2

/-- Main characterization of the Brandmeister batch loop at a key: the rows
for the key of the last batch record carrying it are exactly one row, built
from that record, with the location id resolved against the final location
table. -/
theorem bmFold_rowsForKey_last (sourceID : Nat) (now : Int)
    (l₁ : List BrandmeisterRepeater) (rep : BrandmeisterRepeater)
    (l₂ : List BrandmeisterRepeater) (s : BmSyncState)
    (hNK : NKInv s.db.locations) (hCC : CacheCoh s)
    (hl₂ : ∀ r ∈ l₂, bmKey sourceID r ≠ bmKey sourceID rep) :
    ∃ id, rowsForKey (((l₁ ++ rep :: l₂).foldl (bmProcessRecord sourceID now) s)).db.repeaters
        (bmKey sourceID rep) =
      [bmRepeaterRow id sourceID rep
        (bmFinalResolve
          (((l₁ ++ rep :: l₂).foldl (bmProcessRecord sourceID now) s)).db.locations rep)
        now] := by
  rw [List.foldl_append, List.foldl_cons]
  obtain ⟨hNKa, hCCa, -⟩ := bmFold_inv sourceID now l₁ s hNK hCC
  obtain ⟨hNK1, hCC1, hset1, hres1⟩ :=
    bmProcessLocation_spec (l₁.foldl (bmProcessRecord sourceID now) s) rep now hNKa hCCa
  have hNK2 : NKInv (bmProcessRecord sourceID now
      (l₁.foldl (bmProcessRecord sourceID now) s) rep).db.locations := by
    rw [bmProcessRecord_locations]; exact hNK1
  have hCC2 : CacheCoh (bmProcessRecord sourceID now
      (l₁.foldl (bmProcessRecord sourceID now) s) rep) :=
    CacheCoh_bmProcessRecord sourceID now _ rep hCC1
  have hrows : rowsForKey (bmProcessRecord sourceID now
      (l₁.foldl (bmProcessRecord sourceID now) s) rep).db.repeaters (bmKey sourceID rep) =
      [bmRepeaterRow
        (bmProcessLocation (l₁.foldl (bmProcessRecord sourceID now) s) rep now).2.db.nextRepeaterId
        sourceID rep
        (bmProcessLocation (l₁.foldl (bmProcessRecord sourceID now) s) rep now).1 now] := by
    rw [rowsForKey_bmProcessRecord, if_pos rfl]
  have hframe := bmFold_rowsForKey_frame sourceID now (bmKey sourceID rep) l₂
    (bmProcessRecord sourceID now (l₁.foldl (bmProcessRecord sourceID now) s) rep) hl₂
  obtain ⟨tail, htail⟩ := bmFold_locations_append sourceID now l₂
    (bmProcessRecord sourceID now (l₁.foldl (bmProcessRecord sourceID now) s) rep)
  have hNKfinal := (bmFold_inv sourceID now l₂ _ hNK2 hCC2).1
  have hset2 : locKeySettled (bmProcessRecord sourceID now
      (l₁.foldl (bmProcessRecord sourceID now) s) rep).db.locations rep := by
    rw [bmProcessRecord_locations]; exact hset1
  have hresolve :
      bmFinalResolve ((l₂.foldl (bmProcessRecord sourceID now)
        (bmProcessRecord sourceID now (l₁.foldl (bmProcessRecord sourceID now) s) rep))).db.locations
        rep =
      bmFinalResolve (bmProcessRecord sourceID now
        (l₁.foldl (bmProcessRecord sourceID now) s) rep).db.locations rep := by
    rw [htail]
    exact bmFinalResolve_append (htail ▸ hNKfinal) hset2
  have hres2 : (bmProcessLocation (l₁.foldl (bmProcessRecord sourceID now) s) rep now).1 =
      bmFinalResolve (bmProcessRecord sourceID now
        (l₁.foldl (bmProcessRecord sourceID now) s) rep).db.locations rep := by
    rw [bmProcessRecord_locations]; exact hres1
  exact ⟨_, by rw [hframe, hrows, hresolve, hres2]⟩

/-! ### Source-catalog update and sync-level wrappers -/

theorem updateRepeaterSource_repeaters (db sourceName now count) :
    (updateRepeaterSource db sourceName now count).repeaters = db.repeaters := rfl

theorem updateRepeaterSource_locations (db sourceName now count) :
    (updateRepeaterSource db sourceName now count).locations = db.locations := rfl

theorem updateRepeaterSource_talkgroups (db sourceName now count) :
    (updateRepeaterSource db sourceName now count).talkgroups = db.talkgroups := rfl

theorem find?_sourceName_map (name : String) (f : SourceRow → SourceRow)
    (hname : ∀ s, (f s).source_name = s.source_name) :
    ∀ l : List SourceRow,
    List.find? (fun s => s.source_name == name) (l.map f) =
      (List.find? (fun s => s.source_name == name) l).map f := by
  intro l
  induction l with
  | nil => rfl
  | cons x xs ih =>
    by_cases hx : x.source_name = name
    · rw [List.map_cons,
        List.find?_cons_of_pos _ (by simp [hname, hx]),
        List.find?_cons_of_pos _ (by simp [hx])]
      rfl
    · rw [List.map_cons,
        List.find?_cons_of_neg _ (by simp [hname, hx]),
        List.find?_cons_of_neg _ (by simp [hx]), ih]

theorem GetSourceID_updateRepeaterSource (db sourceName now count name) :
    GetSourceID (updateRepeaterSource db sourceName now count) name =
      GetSourceID db name := by
  unfold GetSourceID updateRepeaterSource
  rw [find?_sourceName_map name _ (fun s => by split <;> rfl)]
  cases List.find? (fun s => s.source_name == name) db.repeater_sources with
  | none => rfl
  | some s =>
    simp only [Option.map_some']
    have hid : (if (s.source_name == sourceName) = true then
        { s with last_sync := some now, total_records := some (count : Int) }
      else s).id = s.id := by split <;> rfl
    rw [hid]

theorem find?_updateRepeaterSource_self (db sourceName now count s0)
    (h : List.find? (fun s => s.source_name == sourceName) db.repeater_sources = some s0) :
    List.find? (fun s => s.source_name == sourceName)
        (updateRepeaterSource db sourceName now count).repeater_sources =
      some { s0 with last_sync := some now, total_records := some (count : Int) } := by
  unfold updateRepeaterSource
  rw [find?_sourceName_map sourceName _ (fun s => by split <;> rfl), h,
    Option.map_some']
  have hp := List.find?_some h
  simp only [hp, if_pos]

/-! ### Fold lemmas for the hearham and TGIF loops -/

theorem hearhamProcessRecord_repeaters_eq (sourceID now db rep) :
    (hearhamProcessRecord sourceID now db rep).repeaters =
      (insertOrReplaceRepeater (insertOrIgnoreLocation db rep.city "" "" 0 0 now)
        (hearhamRepeaterRow (insertOrIgnoreLocation db rep.city "" "" 0 0 now).nextRepeaterId
          sourceID rep
          ((findLocationByKey (insertOrIgnoreLocation db rep.city "" "" 0 0 now).locations
            rep.city "" "").map (·.id)) now)).repeaters := rfl

theorem rowsForKey_hearhamProcessRecord (sourceID now db rep k) :
    rowsForKey (hearhamProcessRecord sourceID now db rep).repeaters k =
      if (sourceID, rep.callsign) = k
      then [hearhamRepeaterRow (insertOrIgnoreLocation db rep.city "" "" 0 0 now).nextRepeaterId
        sourceID rep
        ((findLocationByKey (insertOrIgnoreLocation db rep.city "" "" 0 0 now).locations
          rep.city "" "").map (·.id)) now]
      else rowsForKey db.repeaters k := by
  rw [hearhamProcessRecord_repeaters_eq, rowsForKey_insertOrReplaceRepeater,
    repeaterKey_hearhamRepeaterRow, insertOrIgnoreLocation_repeaters]

theorem hearhamFold_rowsForKey_frame (sourceID : Nat) (now : Int) (k : Nat × String) :
    ∀ (reps : List HearhamRepeater) (db : Database),
    (∀ rep ∈ reps, (sourceID, rep.callsign) ≠ k) →
    rowsForKey ((reps.foldl (hearhamProcessRecord sourceID now) db)).repeaters k =
      rowsForKey db.repeaters k
  | [], _, _ => rfl
  | rep :: rest, db, h => by
    rw [List.foldl_cons,
      hearhamFold_rowsForKey_frame sourceID now k rest _ (fun r hr => h r (by simp [hr])),
      rowsForKey_hearhamProcessRecord, if_neg (h rep (by simp))]

theorem hearhamFold_rowsForKey_last (sourceID : Nat) (now : Int)
    (l₁ : List HearhamRepeater) (rep : HearhamRepeater) (l₂ : List HearhamRepeater)
    (db : Database) (hl₂ : ∀ r ∈ l₂, r.callsign ≠ rep.callsign) :
    ∃ id loc, rowsForKey (((l₁ ++ rep :: l₂).foldl (hearhamProcessRecord sourceID now) db)).repeaters
        (sourceID, rep.callsign) =
      [hearhamRepeaterRow id sourceID rep loc now] := by
  rw [List.foldl_append, List.foldl_cons]
  rw [hearhamFold_rowsForKey_frame sourceID now (sourceID, rep.callsign) l₂ _
    (fun r hr h => hl₂ r hr (congrArg Prod.snd h))]
  rw [rowsForKey_hearhamProcessRecord, if_pos rfl]
  exact ⟨_, _, rfl⟩

theorem hearhamProcessRecord_sources (sourceID now db rep) :
    (hearhamProcessRecord sourceID now db rep).repeater_sources = db.repeater_sources := by
  unfold hearhamProcessRecord
  rw [insertOrReplaceRepeater_sources, insertOrIgnoreLocation_sources]

theorem hearhamFold_sources (sourceID : Nat) (now : Int) :
    ∀ (reps : List HearhamRepeater) (db : Database),
    ((reps.foldl (hearhamProcessRecord sourceID now) db)).repeater_sources =
      db.repeater_sources
  | [], _ => rfl
  | rep :: rest, db => by
    rw [List.foldl_cons, hearhamFold_sources sourceID now rest, hearhamProcessRecord_sources]

theorem tgifProcessRecord_sources (now db tg) :
    (tgifProcessRecord now db tg).repeater_sources = db.repeater_sources := by
  unfold tgifProcessRecord
  cases parseInt? tg.id <;> rfl

theorem tgifFold_sources (now : Int) :
    ∀ (tgs : List TGIFTalkgroup) (db : Database),
    ((tgs.foldl (tgifProcessRecord now) db)).repeater_sources = db.repeater_sources
  | [], _ => rfl
  | tg :: rest, db => by
    rw [List.foldl_cons, tgifFold_sources now rest, tgifProcessRecord_sources]

/-! ### Stream-loop record counting -/

theorem bmStreamLoop_read (chunkSize : Nat) (now : Int) :
    ∀ (items : List (Option BrandmeisterRepeater)) (db : Database)
      (chunk : List BrandmeisterRepeater) (recordsRead recordsSynced : Nat),
    (bmStreamLoop chunkSize now db chunk recordsRead recordsSynced items).1 =
      recordsRead + (items.filter Option.isSome).length
  | [], db, chunk, r, sy => by
    unfold bmStreamLoop
    split
    · split <;> simp
    · simp
  | none :: rest, db, chunk, r, sy => by
    unfold bmStreamLoop
    simpa using bmStreamLoop_read chunkSize now rest db chunk r sy
  | some rep :: rest, db, chunk, r, sy => by
    unfold bmStreamLoop
    simp only [List.filter_cons, Option.isSome_some, if_pos, List.length_cons]
    split
    · split <;> rw [bmStreamLoop_read chunkSize now rest] <;> omega
    · rw [bmStreamLoop_read chunkSize now rest]; omega

theorem GetSourceID_congr {db1 db2 : Database}
    (h : db1.repeater_sources = db2.repeater_sources) (name : String) :
    GetSourceID db1 name = GetSourceID db2 name := by
  unfold GetSourceID
  rw [h]

theorem count_some_add_count_none {α : Type} :
    ∀ l : List (Option α),
    (l.filter Option.isSome).length + (l.filter Option.isNone).length = l.length
  | [] => rfl
  | some _ :: rest => by
    have := count_some_add_count_none rest
    simp [List.filter_cons]
    omega
  | none :: rest => by
    have := count_some_add_count_none rest
    simp [List.filter_cons]
    omega

/-- The primary-key invariant of the locations table: distinct row ids. -/
def IdInv (locs : List LocationRow) : Prop :=
  locs.Pairwise (fun a b => a.id ≠ b.id)

instance (locs : List LocationRow) : Decidable (IdInv locs) := by
  unfold IdInv; infer_instance

theorem tryEndpoints_first_ok :
    ∀ (l₁ : List EndpointOutcome) (rs : List BrandmeisterRepeater)
      (l₂ : List EndpointOutcome),
    (∀ o ∈ l₁, o.isOk = false) → tryEndpoints (l₁ ++ .ok rs :: l₂) = .ok rs
  | [], _, _, _ => rfl
  | o :: t, rs, l₂, h => by
    have ho := h o (by simp)
    have ht := tryEndpoints_first_ok t rs l₂ (fun x hx => h x (by simp [hx]))
    cases o with
    | ok _ => exact absurd ho (by simp [EndpointOutcome.isOk])
    | notFound => simpa [tryEndpoints] using ht
    | unauthorized => simpa [tryEndpoints] using ht
    | badStatus code => simpa [tryEndpoints] using ht
    | transportError => simpa [tryEndpoints] using ht
    | parseError => simpa [tryEndpoints] using ht

theorem tryEndpoints_error_iff :
    ∀ outcomes : List EndpointOutcome,
    tryEndpoints outcomes = .error "all API endpoints failed" ↔
      ∀ o ∈ outcomes, o.isOk = false
  | [] => by simp [tryEndpoints]
  | o :: rest => by
    cases o <;>
      simp [tryEndpoints, tryEndpoints_error_iff rest, EndpointOutcome.isOk]

theorem poolInitCalls_done (firstInitErr : Option String) :
    ∀ m : Nat, poolInitCalls ⟨true, true⟩ firstInitErr m =
      (List.replicate m none, ⟨true, true⟩)
  | 0 => rfl
  | m + 1 => by
    simp [poolInitCalls, ClientPool.Initialize, poolInitCalls_done firstInitErr m,
      List.replicate_succ]

/-! ### Claims -/

/-- C5 counterexample: a cache blob whose age is exactly the six-hour ceiling
is returned as a hit by `loadFromCache` (the code misses only when
`age > ceiling`), yet the claim's strict condition `now - T < C` is false
there, so "hit iff now - T < C" does not hold as stated. -/
theorem C5_load_hit_boundary_counterexample :
    loadFromCache (some 0) (some []) hearhamCacheCeiling = some [] ∧
      ¬(hearhamCacheCeiling - 0 < hearhamCacheCeiling) := by
  constructor
  · rfl
  · decide

/-- C5 (amended): `loadFromCache` returns the cached records (a hit) iff the
backing file exists (mtime is available), its age `now - T` is at most (not
strictly below) the six-hour ceiling, and the content reads and parses;
otherwise it is a miss. A load at age C - ε is thus a hit, and one at age
C + ε a miss. -/
theorem C5_load_hit_iff (modTime : Option Int) (parsed : Option (List HearhamRepeater))
    (now : Int) (records : List HearhamRepeater) :
    loadFromCache modTime parsed now = some records ↔
      ∃ t, modTime = some t ∧ now - t ≤ hearhamCacheCeiling ∧ parsed = some records := by
  cases modTime with
  | none => simp [loadFromCache]
  | some t =>
    have hdef : loadFromCache (some t) parsed now =
        if now - t > hearhamCacheCeiling then none else parsed := rfl
    rw [hdef]
    by_cases h : now - t > hearhamCacheCeiling
    · rw [if_pos h]
      constructor
      · intro hc; cases hc
      · rintro ⟨t2, ht2, hle, -⟩
        have ht : t = t2 := by injection ht2
        exact absurd hle (by omega)
    · rw [if_neg h]
      constructor
      · intro hp
        exact ⟨t, rfl, by omega, hp⟩
      · rintro ⟨t2, ht2, -, hp⟩
        exact hp

/-- C6 counterexample: when the first initialization fails, the first caller
gets the error but a second caller gets nil (the `sync.Once` body is skipped
and the local `initErr` keeps its zero value), so callers do not all observe
the first initialization's error. -/
theorem C6_initialize_second_caller_counterexample :
    (poolInitCalls ⟨false, false⟩ (some "brandmeister init failed") 2).1 =
      [some "brandmeister init failed", none] := rfl

/-- C6 (amended): client-pool initialization runs the construction exactly
once per process — the first call constructs the adapters and returns the
first initialization's error — but idempotence of the result does not hold:
every subsequent call returns nil regardless of whether the first
initialization failed, because the error is never stored in the pool. -/
theorem C6_initialize_once (firstInitErr : Option String) (n : Nat) (h : 0 < n) :
    (poolInitCalls ⟨false, false⟩ firstInitErr n).1 =
      firstInitErr :: List.replicate (n - 1) none ∧
    (poolInitCalls ⟨false, false⟩ firstInitErr n).2 = ⟨true, true⟩ := by
  cases n with
  | zero => exact absurd h (by decide)
  | succ m =>
    have hfirst : (ClientPool.Initialize ⟨false, false⟩ firstInitErr) =
        (firstInitErr, ⟨true, true⟩) := rfl
    constructor
    · simp [poolInitCalls, hfirst, poolInitCalls_done firstInitErr m]
    · simp [poolInitCalls, hfirst, poolInitCalls_done firstInitErr m]

/-- C6 witness: three sequential calls after a failing first initialization. -/
theorem C6_initialize_once_witness :
    (poolInitCalls ⟨false, false⟩ (some "e") 3).1 = some "e" :: List.replicate 2 none ∧
    (poolInitCalls ⟨false, false⟩ (some "e") 3).2 = ⟨true, true⟩ :=
  C6_initialize_once (some "e") 3 (by decide)

/-- C7 (spec-modelled adapter): endpoints are tried in fixed priority order;
the first outcome with HTTP 200 and a parseable body wins, any prefix of
failing candidates (404, 401, other statuses, transport or parse failures) is
skipped without aborting, and the all-endpoints-failed error occurs exactly
when every candidate fails. -/
theorem C7_endpoint_priority (outcomes : List EndpointOutcome) :
    (∀ (l₁ : List EndpointOutcome) (rs : List BrandmeisterRepeater)
       (l₂ : List EndpointOutcome),
       outcomes = l₁ ++ .ok rs :: l₂ → (∀ o ∈ l₁, o.isOk = false) →
       tryEndpoints outcomes = .ok rs) ∧
    (tryEndpoints outcomes = .error "all API endpoints failed" ↔
       ∀ o ∈ outcomes, o.isOk = false) := by
  constructor
  · intro l₁ rs l₂ hsplit hfail
    subst hsplit
    exact tryEndpoints_first_ok l₁ rs l₂ hfail
  · exact tryEndpoints_error_iff outcomes

/-- C7 witness: a 404 and then a 401 are skipped and the third endpoint's 200
with a parseable body is used; a list of only failures is the fatal error. -/
theorem C7_endpoint_priority_witness :
    tryEndpoints [.notFound, .unauthorized, .ok []] = .ok [] ∧
    tryEndpoints [.notFound, .badStatus 500, .parseError] =
      .error "all API endpoints failed" :=
  ⟨(C7_endpoint_priority [.notFound, .unauthorized, .ok []]).1
      [.notFound, .unauthorized] [] [] rfl (by decide),
   (C7_endpoint_priority [.notFound, .badStatus 500, .parseError]).2.mpr (by decide)⟩

/-- A well-formed Brandmeister record for concrete runs. -/
def bmSample (i : Int) (callsign tx : String) : BrandmeisterRepeater :=
  ⟨i, callsign, "Berlin", "", "DE", tx, "439.5875", 1, 52, 13, 2, "MMDVM", "",
    "https://example.org", 25, 30, 0, "test repeater"⟩

/-- A well-formed hearham record for concrete runs. -/
def hhSample (i : Int) (callsign : String) (freq : Int) : HearhamRepeater :=
  ⟨i, callsign, 0, 0, "Boston, MA", "", "", "FM", "88.5", "88.5", freq, -600000,
    "test", "50", 1, ""⟩

/-- A stored repeater row with a given id and tx frequency, as it would sit in
the repeaters table. -/
def c9row (id : Nat) (tx : ℚ) : RepeaterRow :=
  { id := id, callsign := "W1AW", source_id := 1, external_id := toString id,
    location_id := none, tx_frequency := some tx, rx_frequency := none,
    offset_frequency := none, tone_frequency := none, mode := "FM",
    color_code := none, digital_modes := none, operational := true,
    online_status := false, last_seen := none, power_watts := none,
    antenna_height_agl := none, antenna_height_msl := none, hardware := none,
    firmware := none, website := none, description := none,
    created_at := 0, updated_at := 0, last_api_sync := 0 }

/-- Database holding repeaters at 144.0, 146.52 and 148.5 MHz. -/
def c9db : Database :=
  { emptyDatabase with
    repeaters := [c9row 1 144, c9row 2 (14652/100), c9row 3 (297/2)]
    nextRepeaterId := 4 }

/-- C9: with repeaters at 144.0, 146.52 and 148.5 MHz, querying ±1 MHz around
146.52 selects only the 146.52 row — but the scan loop's duplicated append
(integration.go:447 and 451) returns that row twice, where the claim (and the
spec's test) requires it exactly once. -/
theorem C9_duplicate_append_code_bug :
    GetRepeatersByFrequency c9db (14652/100) 1 10 =
      [c9row 2 (14652/100), c9row 2 (14652/100)] := by
  norm_num [GetRepeatersByFrequency, c9db, c9row, emptyDatabase, sortByDistance,
    insertByDistance, txDistance, List.filter_cons, List.flatMap]

/-- C3 counterexample: in the hearham bulk fetch, one malformed record inside
an otherwise valid top-level array makes the single whole-array
`json.Unmarshal` report an error, and `fetchAllData` then fails the entire
batch — contradicting the claim that only an unparseable envelope can fail
the fetch. -/
theorem C3_hearham_batch_abort_counterexample :
    hearhamFetchDecode (some [some (hhSample 1 "K1ABC" 145310000), none]) =
      .error "failed to decode JSON response" := rfl

/-- C3 (amended): the chunked-streaming decoder satisfies the claim — with a
valid envelope it never fails, skips each malformed record, and reads
validRecordCount = totalRecords - malformedCount records, failing only when
the opening bracket is unreadable; the hearham bulk fetch decode, however,
fails the whole batch whenever any individual record is malformed. -/
theorem C3_stream_decode (db : Database) :
    (∀ (items : List (Option BrandmeisterRepeater)) (chunkSize : Nat) (now : Int),
      ∃ read synced db',
        streamBrandmeisterData db (some items) chunkSize now = .ok (read, synced, db') ∧
        read + (items.filter Option.isNone).length = items.length) ∧
    (∀ (chunkSize : Nat) (now : Int), ∃ e,
        streamBrandmeisterData db none chunkSize now = .error e) ∧
    (∀ items : List (Option HearhamRepeater), (∃ x ∈ items, x = none) →
        ∃ e, hearhamFetchDecode (some items) = .error e) := by
  refine ⟨?_, ?_, ?_⟩
  · intro items chunkSize now
    refine ⟨(bmStreamLoop chunkSize now db [] 0 0 items).1,
            (bmStreamLoop chunkSize now db [] 0 0 items).2.1,
            (bmStreamLoop chunkSize now db [] 0 0 items).2.2, rfl, ?_⟩
    rw [bmStreamLoop_read]
    have := count_some_add_count_none items
    omega
  · intro chunkSize now
    exact ⟨"expected opening bracket", rfl⟩
  · rintro items ⟨x, hx, rfl⟩
    have hall : items.all Option.isSome = false := by
      rw [Bool.eq_false_iff]
      intro hcontra
      have := List.all_eq_true.mp hcontra none hx
      simp at this
    unfold hearhamFetchDecode
    simp only [hall, Bool.false_eq_true, if_neg, reduceIte]
    exact ⟨"failed to decode JSON response", rfl⟩

/-- C3 witness: a three-item stream with one malformed record reads two
records without failing; a missing envelope fails; a hearham batch with one
malformed record fails as a whole. -/
theorem C3_stream_decode_witness :
    (∃ read synced db',
      streamBrandmeisterData emptyDatabase
          (some [some (bmSample 1 "DB0AAA" "438.2"), none,
            some (bmSample 2 "DB0BBB" "439.0")]) 2 7 = .ok (read, synced, db') ∧
        read + ([some (bmSample 1 "DB0AAA" "438.2"), none,
          some (bmSample 2 "DB0BBB" "439.0")].filter Option.isNone).length = 3) ∧
    (∃ e, streamBrandmeisterData emptyDatabase none 2 7 = .error e) ∧
    (∃ e, hearhamFetchDecode (some [some (hhSample 1 "K1ABC" 145310000), none]) =
      .error e) :=
  ⟨(C3_stream_decode emptyDatabase).1
      [some (bmSample 1 "DB0AAA" "438.2"), none, some (bmSample 2 "DB0BBB" "439.0")] 2 7,
   (C3_stream_decode emptyDatabase).2.1 2 7,
   (C3_stream_decode emptyDatabase).2.2 [some (hhSample 1 "K1ABC" 145310000), none]
     ⟨none, by simp, rfl⟩⟩

theorem eq_of_pairwise_ne {α : Type} {β : Type} {f : α → β} :
    ∀ {l : List α}, l.Pairwise (fun a b => f a ≠ f b) →
    ∀ {a b : α}, a ∈ l → b ∈ l → f a = f b → a = b := by
  intro l
  induction l with
  | nil => intro _ a b ha; cases ha
  | cons x xs ih =>
    intro h a b ha hb hf
    rcases List.mem_cons.mp ha with rfl | ha2 <;> rcases List.mem_cons.mp hb with rfl | hb2
    · rfl
    · exact absurd hf (List.rel_of_pairwise_cons h hb2)
    · exact absurd hf.symm (List.rel_of_pairwise_cons h ha2)
    · exact ih (List.Pairwise.of_cons h) ha2 hb2 hf

/-- Sample locations table with one populated row. -/
def c2db : Database :=
  { emptyDatabase with
    locations := [⟨1, "Quito", "P", "EC", 10, 20, 0⟩]
    nextLocationId := 2 }

/-- C2 counterexample: an existing row with populated coordinates (10, 20) is
overwritten by a new sighting's populated pair (30, 40): the UPDATE's WHERE
clause `latitude = 0 OR longitude = 0 OR ? != 0 AND ? != 0` fires whenever
both new coordinates are non-zero, so the claim's "never overwrites a
populated coordinate pair" is false. -/
theorem C2_overwrite_counterexample :
    (UpsertLocation c2db "Quito" "P" "EC" 30 40 5).2.locations =
      [⟨1, "Quito", "P", "EC", 30, 40, 0⟩] := by with_unfolding_all decide

/-- C2 (amended): the location upsert never deletes a row and inserts a fresh
row when the natural key is absent; for an existing row it replaces the
coordinate pair with the new values exactly when the row matches the natural
key and (its latitude or longitude is zero, or both new coordinates are
non-zero) — hence a populated pair is overwritten whenever the new pair is
fully non-zero, rather than only when the old pair is zero. -/
theorem C2_upsert_location_update_rule (db : Database) (city state country : String)
    (lat lng : ℚ) (now : Int)
    (hNK : NKInv db.locations) (hId : IdInv db.locations) :
    (∀ r ∈ db.locations,
      ∃ r' ∈ (UpsertLocation db city state country lat lng now).2.locations,
        r'.id = r.id ∧ r'.city = r.city ∧ r'.state = r.state ∧ r'.country = r.country ∧
        r'.created_at = r.created_at ∧
        ((r'.latitude, r'.longitude) =
          if (r.city, r.state, r.country) = (city, state, country) ∧
             (r.latitude = 0 ∨ r.longitude = 0 ∨ (lat ≠ 0 ∧ lng ≠ 0))
          then (lat, lng) else (r.latitude, r.longitude))) ∧
    (findLocationByKey db.locations city state country = none →
      (UpsertLocation db city state country lat lng now).2.locations =
        db.locations ++ [⟨db.nextLocationId, city, state, country, lat, lng, now⟩]) := by
  unfold UpsertLocation
  cases hfind : findLocationByKey db.locations city state country with
  | none =>
    refine ⟨?_, fun _ => rfl⟩
    intro r hr
    refine ⟨r, List.mem_append.mpr (Or.inl hr), rfl, rfl, rfl, rfl, rfl, ?_⟩
    rw [if_neg]
    rintro ⟨hkey, -⟩
    apply List.find?_eq_none.mp hfind r hr
    have h1 : r.city = city := congrArg (·.1) hkey
    have h2 : r.state = state := congrArg (·.2.1) hkey
    have h3 : r.country = country := congrArg (·.2.2) hkey
    simp [h1, h2, h3]
  | some l =>
    have hl := List.find?_some hfind
    simp only [Bool.and_eq_true, beq_iff_eq] at hl
    have hlmem := List.mem_of_find?_eq_some hfind
    refine ⟨?_, fun hc => Option.noConfusion hc⟩
    intro r hr
    refine ⟨_, List.mem_map_of_mem _ hr, ?_⟩
    by_cases hcond : r.id = l.id ∧ (r.latitude = 0 ∨ r.longitude = 0 ∨ (lat ≠ 0 ∧ lng ≠ 0))
    · rw [if_pos hcond]
      refine ⟨rfl, rfl, rfl, rfl, rfl, ?_⟩
      rw [if_pos ?_]
      have hrl : r = l := eq_of_pairwise_ne hId hr hlmem hcond.1
      refine ⟨?_, hcond.2⟩
      rw [hrl]
      exact congrArg₂ Prod.mk hl.1.1 (congrArg₂ Prod.mk hl.1.2 hl.2)
    · rw [if_neg hcond]
      refine ⟨rfl, rfl, rfl, rfl, rfl, ?_⟩
      rw [if_neg ?_]
      rintro ⟨hkey, hzero⟩
      have hkeyl : (r.city, r.state, r.country) = (l.city, l.state, l.country) := by
        rw [hkey]
        exact (congrArg₂ Prod.mk hl.1.1 (congrArg₂ Prod.mk hl.1.2 hl.2)).symm
      have hrl : r = l := eq_of_pairwise_ne hNK hr hlmem hkeyl
      exact hcond ⟨congrArg LocationRow.id hrl, hzero⟩

/-- C2 witness: a table with a populated row and a half-populated row — the
populated row matching the key is overwritten by the fully non-zero pair, and
the rule's characterization evaluates concretely. -/
theorem C2_upsert_location_update_rule_witness :
    (∀ r ∈ c2db.locations,
      ∃ r' ∈ (UpsertLocation c2db "Quito" "P" "EC" 30 40 5).2.locations,
        r'.id = r.id ∧ r'.city = r.city ∧ r'.state = r.state ∧ r'.country = r.country ∧
        r'.created_at = r.created_at ∧
        ((r'.latitude, r'.longitude) =
          if (r.city, r.state, r.country) = ("Quito", "P", "EC") ∧
             (r.latitude = 0 ∨ r.longitude = 0 ∨ ((30 : ℚ) ≠ 0 ∧ (40 : ℚ) ≠ 0))
          then ((30 : ℚ), (40 : ℚ)) else (r.latitude, r.longitude))) ∧
    (findLocationByKey c2db.locations "Quito" "P" "EC" = none →
      (UpsertLocation c2db "Quito" "P" "EC" 30 40 5).2.locations =
        c2db.locations ++ [⟨c2db.nextLocationId, "Quito", "P", "EC", 30, 40, 5⟩]) :=
  C2_upsert_location_update_rule c2db "Quito" "P" "EC" 30 40 5
    (by with_unfolding_all decide) (by with_unfolding_all decide)

theorem SyncBrandmeisterData_ok {db : Database} {B : List BrandmeisterRepeater}
    {t : Int} {db' : Database} {sourceID : Nat}
    (hsrc : GetSourceID db "brandmeister" = .ok sourceID)
    (h : SyncBrandmeisterData db B t = .ok db') :
    db' = updateRepeaterSource ((B.foldl (bmProcessRecord sourceID t) ⟨db, []⟩)).db
      "brandmeister" t B.length := by
  unfold SyncBrandmeisterData at h
  rw [hsrc] at h
  simp only [Except.ok.injEq] at h
  exact h.symm

theorem SyncHearhamData_ok {db : Database} {B : List HearhamRepeater}
    {t : Int} {db' : Database} {sourceID : Nat}
    (hsrc : GetSourceID db "hearham" = .ok sourceID)
    (h : SyncHearhamData db B t = .ok db') :
    db' = updateRepeaterSource (B.foldl (hearhamProcessRecord sourceID t) db)
      "hearham" t B.length := by
  unfold SyncHearhamData at h
  rw [hsrc] at h
  simp only [Except.ok.injEq] at h
  exact h.symm

/-- The empty per-transaction location cache is trivially coherent. -/
theorem CacheCoh_empty (db : Database) : CacheCoh ⟨db, []⟩ :=
  fun p hp => absurd hp (List.not_mem_nil p)

/-- C1: syncing a batch and then re-syncing records with the same
(source, external_id) pair but changed attribute values leaves exactly one
repeaters row for that pair, carrying the last re-synced record's values (the
INSERT OR REPLACE fully replaces the previous row), and the
UNIQUE(source_id, external_id) discipline never produces duplicate rows. -/
theorem C1_resync_single_row (db0 : Database) (B1 B2 : List BrandmeisterRepeater)
    (t1 t2 : Int) (db1 db2 : Database) (sourceID : Nat)
    (hND : NoDupKeys db0.repeaters) (hNK : NKInv db0.locations)
    (hsrc : GetSourceID db0 "brandmeister" = .ok sourceID)
    (h1 : SyncBrandmeisterData db0 B1 t1 = .ok db1)
    (h2 : SyncBrandmeisterData db1 B2 t2 = .ok db2)
    (l₁ : List BrandmeisterRepeater) (rep : BrandmeisterRepeater)
    (l₂ : List BrandmeisterRepeater)
    (hsplit : B2 = l₁ ++ rep :: l₂)
    (hlast : ∀ r ∈ l₂, toString r.id ≠ toString rep.id) :
    NoDupKeys db2.repeaters ∧
    ∃ id loc, rowsForKey db2.repeaters (sourceID, toString rep.id) =
      [bmRepeaterRow id sourceID rep loc t2] := by
  have hdb1 := SyncBrandmeisterData_ok hsrc h1
  have hsrc1 : GetSourceID db1 "brandmeister" = .ok sourceID := by
    rw [hdb1, GetSourceID_updateRepeaterSource,
      GetSourceID_congr (bmFold_sources sourceID t1 B1 ⟨db0, []⟩) "brandmeister"]
    exact hsrc
  have hdb2 := SyncBrandmeisterData_ok hsrc1 h2
  have hND1 : NoDupKeys db1.repeaters := by
    rw [hdb1, updateRepeaterSource_repeaters]
    exact bmFold_NoDupKeys sourceID t1 B1 ⟨db0, []⟩ hND
  have hNK1 : NKInv db1.locations := by
    rw [hdb1, updateRepeaterSource_locations]
    exact (bmFold_inv sourceID t1 B1 ⟨db0, []⟩ hNK (CacheCoh_empty db0)).1
  constructor
  · rw [hdb2, updateRepeaterSource_repeaters]
    exact bmFold_NoDupKeys sourceID t2 B2 ⟨db1, []⟩ hND1
  · subst hsplit
    obtain ⟨id, hid⟩ := bmFold_rowsForKey_last sourceID t2 l₁ rep l₂ ⟨db1, []⟩ hNK1
      (CacheCoh_empty db1)
      (fun r hr h => hlast r hr (congrArg Prod.snd h))
    refine ⟨id, bmFinalResolve (((l₁ ++ rep :: l₂).foldl (bmProcessRecord sourceID t2)
      ⟨db1, []⟩)).db.locations rep, ?_⟩
    rw [hdb2, updateRepeaterSource_repeaters]
    exact hid

def c1rec1 : BrandmeisterRepeater :=
  ⟨7, "DB0AAA", "", "", "", "", "", 1, 0, 0, 2, "", "", "", 25, 30, 0, ""⟩

def c1rec2 : BrandmeisterRepeater :=
  ⟨7, "DB0AAA", "", "", "", "", "", 5, 0, 0, 0, "", "", "", 40, 10, 0, ""⟩

def c1db1 : Database :=
  ((SyncBrandmeisterData emptyDatabase [c1rec1] 1).toOption).getD emptyDatabase

def c1db2 : Database :=
  ((SyncBrandmeisterData c1db1 [c1rec2] 2).toOption).getD emptyDatabase

/-- C1 witness: provider id 7 synced, then re-synced with changed color code,
status, power and antenna values. -/
theorem C1_resync_single_row_witness :
    NoDupKeys c1db2.repeaters ∧
    ∃ id loc, rowsForKey c1db2.repeaters (1, toString c1rec2.id) =
      [bmRepeaterRow id 1 c1rec2 loc 2] :=
  C1_resync_single_row emptyDatabase [c1rec1] [c1rec2] 1 2 c1db1 c1db2 1
    (by decide) (by decide) (by with_unfolding_all rfl)
    (by with_unfolding_all rfl) (by with_unfolding_all rfl)
    [] c1rec2 [] rfl (by simp)

def c8rec : BrandmeisterRepeater :=
  ⟨7, "DB0AAA", "", "", "", "", "", 1, 0, 0, 2, "", "", "", 25, 30, 0, ""⟩

/-- C8 counterexample: re-syncing the identical one-record batch leaves the
row count at one and advances updated_at, but created_at is ALSO reset from 1
to 2, because INSERT OR REPLACE deletes the old row and inserts a fresh one
whose created_at takes DEFAULT CURRENT_TIMESTAMP — the claim's
"leaves created_at unchanged" is false. -/
theorem C8_created_at_reset_counterexample :
    ((SyncBrandmeisterData emptyDatabase [c8rec] 1).toOption.bind (fun db1 =>
      (SyncBrandmeisterData db1 [c8rec] 2).toOption.map (fun db2 =>
        (db1.repeaters.map (fun r => (r.created_at, r.updated_at)),
         db2.repeaters.map (fun r => (r.created_at, r.updated_at)))))) =
      some ([(1, 1)], [(2, 2)]) := by with_unfolding_all decide

/-- C8 (amended): a second sync over an unchanged batch leaves the repeaters
row count unchanged, and for every re-synced key the single row keeps all
attribute columns — including the resolved location id — while the audit
columns created_at, updated_at and last_api_sync are ALL reset to the second
sync's time (REPLACE deletes and re-inserts the row, so created_at does not
survive) and the surrogate row id changes. -/
theorem C8_resync_row_count_and_columns (db0 : Database)
    (reps : List BrandmeisterRepeater) (t1 t2 : Int) (db1 db2 : Database)
    (sourceID : Nat)
    (hND : NoDupKeys db0.repeaters) (hNK : NKInv db0.locations)
    (hsrc : GetSourceID db0 "brandmeister" = .ok sourceID)
    (h1 : SyncBrandmeisterData db0 reps t1 = .ok db1)
    (h2 : SyncBrandmeisterData db1 reps t2 = .ok db2) :
    db2.repeaters.length = db1.repeaters.length ∧
    ∀ (l₁ : List BrandmeisterRepeater) (rep : BrandmeisterRepeater)
      (l₂ : List BrandmeisterRepeater),
      reps = l₁ ++ rep :: l₂ → (∀ r ∈ l₂, toString r.id ≠ toString rep.id) →
      ∃ id1 id2 loc,
        rowsForKey db1.repeaters (sourceID, toString rep.id) =
          [bmRepeaterRow id1 sourceID rep loc t1] ∧
        rowsForKey db2.repeaters (sourceID, toString rep.id) =
          [bmRepeaterRow id2 sourceID rep loc t2] := by
  have hdb1 := SyncBrandmeisterData_ok hsrc h1
  have hsrc1 : GetSourceID db1 "brandmeister" = .ok sourceID := by
    rw [hdb1, GetSourceID_updateRepeaterSource,
      GetSourceID_congr (bmFold_sources sourceID t1 reps ⟨db0, []⟩) "brandmeister"]
    exact hsrc
  have hdb2 := SyncBrandmeisterData_ok hsrc1 h2
  have hND1 : NoDupKeys db1.repeaters := by
    rw [hdb1, updateRepeaterSource_repeaters]
    exact bmFold_NoDupKeys sourceID t1 reps ⟨db0, []⟩ hND
  have hNK1 : NKInv db1.locations := by
    rw [hdb1, updateRepeaterSource_locations]
    exact (bmFold_inv sourceID t1 reps ⟨db0, []⟩ hNK (CacheCoh_empty db0)).1
  constructor
  · rw [hdb2, updateRepeaterSource_repeaters]
    apply bmFold_length sourceID t2 reps ⟨db1, []⟩ hND1
    intro rep hrep
    rw [hdb1, updateRepeaterSource_repeaters]
    exact bmFold_hasKey_batch sourceID t1 reps ⟨db0, []⟩ rep hrep
  · intro l₁ rep l₂ hsplit hlast
    subst hsplit
    obtain ⟨id1, hid1⟩ := bmFold_rowsForKey_last sourceID t1 l₁ rep l₂ ⟨db0, []⟩ hNK
      (CacheCoh_empty db0) (fun r hr h => hlast r hr (congrArg Prod.snd h))
    obtain ⟨id2, hid2⟩ := bmFold_rowsForKey_last sourceID t2 l₁ rep l₂ ⟨db1, []⟩ hNK1
      (CacheCoh_empty db1) (fun r hr h => hlast r hr (congrArg Prod.snd h))
    have hsettled : locKeySettled db1.locations rep := by
      rw [hdb1, updateRepeaterSource_locations]
      exact (bmFold_inv sourceID t1 (l₁ ++ rep :: l₂) ⟨db0, []⟩ hNK
        (CacheCoh_empty db0)).2.2 rep (by simp)
    obtain ⟨tail, htail⟩ :=
      bmFold_locations_append sourceID t2 (l₁ ++ rep :: l₂) ⟨db1, []⟩
    have hNKfold2 :=
      (bmFold_inv sourceID t2 (l₁ ++ rep :: l₂) ⟨db1, []⟩ hNK1 (CacheCoh_empty db1)).1
    have hloceq :
        bmFinalResolve (((l₁ ++ rep :: l₂).foldl (bmProcessRecord sourceID t2)
          ⟨db1, []⟩)).db.locations rep = bmFinalResolve db1.locations rep := by
      rw [htail]
      exact bmFinalResolve_append (htail ▸ hNKfold2) hsettled
    refine ⟨id1, id2, bmFinalResolve db1.locations rep, ?_, ?_⟩
    · have hloc1 : bmFinalResolve (((l₁ ++ rep :: l₂).foldl (bmProcessRecord sourceID t1)
          ⟨db0, []⟩)).db.locations rep = bmFinalResolve db1.locations rep := by
        rw [hdb1, updateRepeaterSource_locations]
      have hreps1 : (((l₁ ++ rep :: l₂).foldl (bmProcessRecord sourceID t1)
          ⟨db0, []⟩)).db.repeaters = db1.repeaters := by
        rw [hdb1, updateRepeaterSource_repeaters]
      rw [hloc1, hreps1] at hid1
      exact hid1
    · rw [hloceq] at hid2
      rw [hdb2, updateRepeaterSource_repeaters]
      exact hid2

def c8db1 : Database :=
  ((SyncBrandmeisterData emptyDatabase [c8rec] 1).toOption).getD emptyDatabase

def c8db2 : Database :=
  ((SyncBrandmeisterData c8db1 [c8rec] 2).toOption).getD emptyDatabase

/-- C8 witness: the identical one-record batch re-synced at times 1 and 2. -/
theorem C8_resync_row_count_and_columns_witness :
    c8db2.repeaters.length = c8db1.repeaters.length ∧
    ∀ (l₁ : List BrandmeisterRepeater) (rep : BrandmeisterRepeater)
      (l₂ : List BrandmeisterRepeater),
      [c8rec] = l₁ ++ rep :: l₂ → (∀ r ∈ l₂, toString r.id ≠ toString rep.id) →
      ∃ id1 id2 loc,
        rowsForKey c8db1.repeaters (1, toString rep.id) =
          [bmRepeaterRow id1 1 rep loc 1] ∧
        rowsForKey c8db2.repeaters (1, toString rep.id) =
          [bmRepeaterRow id2 1 rep loc 2] :=
  C8_resync_row_count_and_columns emptyDatabase [c8rec] 1 2 c8db1 c8db2 1
    (by decide) (by decide) (by with_unfolding_all rfl)
    (by with_unfolding_all rfl) (by with_unfolding_all rfl)

/-- C4 counterexample: a successful TGIF sync commits its talkgroup upsert
(the table has one row afterwards) yet leaves the tgif row of
repeater_sources untouched — its last_sync is still NULL — so "for every
source, the catalog row is updated at the end of every successful sync" is
false. -/
theorem C4_tgif_no_catalog_update_counterexample :
    (SyncTGIFData emptyDatabase [⟨"91", "Worldwide", "", ""⟩] 5).toOption.map
      (fun db' => (db'.talkgroups.length,
        (List.find? (fun s => s.source_name == "tgif") db'.repeater_sources).map
          (fun s => s.last_sync))) = some (1, some none) := by
  with_unfolding_all decide

/-- C4 (amended): the Brandmeister and hearham syncs update their source's
catalog row with the new last_sync timestamp and the record count inside the
same transaction as the record upserts (the committed state carries both, and
a failed transaction commits neither), but the TGIF sync never touches
repeater_sources: a successful TGIF sync leaves the whole catalog unchanged. -/
theorem C4_catalog_update :
    (∀ (db : Database) (B : List BrandmeisterRepeater) (t : Int) (db' : Database)
       (s0 : SourceRow),
      SyncBrandmeisterData db B t = .ok db' →
      List.find? (fun s => s.source_name == "brandmeister") db.repeater_sources = some s0 →
      List.find? (fun s => s.source_name == "brandmeister") db'.repeater_sources =
        some { s0 with last_sync := some t, total_records := some (B.length : Int) }) ∧
    (∀ (db : Database) (H : List HearhamRepeater) (t : Int) (db' : Database)
       (s0 : SourceRow),
      SyncHearhamData db H t = .ok db' →
      List.find? (fun s => s.source_name == "hearham") db.repeater_sources = some s0 →
      List.find? (fun s => s.source_name == "hearham") db'.repeater_sources =
        some { s0 with last_sync := some t, total_records := some (H.length : Int) }) ∧
    (∀ (db : Database) (T : List TGIFTalkgroup) (t : Int) (db' : Database),
      SyncTGIFData db T t = .ok db' → db'.repeater_sources = db.repeater_sources) := by
  refine ⟨?_, ?_, ?_⟩
  · intro db B t db' s0 h hfind
    have hsrc : GetSourceID db "brandmeister" = .ok s0.id := by
      unfold GetSourceID
      rw [hfind]
    have hdb' := SyncBrandmeisterData_ok hsrc h
    rw [hdb']
    apply find?_updateRepeaterSource_self
    rw [bmFold_sources]
    exact hfind
  · intro db H t db' s0 h hfind
    have hsrc : GetSourceID db "hearham" = .ok s0.id := by
      unfold GetSourceID
      rw [hfind]
    have hdb' := SyncHearhamData_ok hsrc h
    rw [hdb']
    apply find?_updateRepeaterSource_self
    rw [hearhamFold_sources]
    exact hfind
  · intro db T t db' h
    unfold SyncTGIFData at h
    simp only [Except.ok.injEq] at h
    rw [← h]
    exact tgifFold_sources t T db

def c4bmdb : Database :=
  ((SyncBrandmeisterData emptyDatabase [] 3).toOption).getD emptyDatabase

def c4hhdb : Database :=
  ((SyncHearhamData emptyDatabase [] 4).toOption).getD emptyDatabase

def c4tgdb : Database :=
  ((SyncTGIFData emptyDatabase [⟨"91", "Worldwide", "", ""⟩] 5).toOption).getD emptyDatabase

/-- C4 witness: empty Brandmeister and hearham batches stamp their catalog
rows with the sync time and a zero count; a TGIF sync leaves the catalog as
seeded. -/
theorem C4_catalog_update_witness :
    List.find? (fun s => s.source_name == "brandmeister") c4bmdb.repeater_sources =
      some ⟨1, "brandmeister", "https://api.brandmeister.network", some 3, some 0⟩ ∧
    List.find? (fun s => s.source_name == "hearham") c4hhdb.repeater_sources =
      some ⟨2, "hearham", "https://hearham.com", some 4, some 0⟩ ∧
    c4tgdb.repeater_sources = emptyDatabase.repeater_sources :=
  ⟨C4_catalog_update.1 emptyDatabase [] 3 c4bmdb
      ⟨1, "brandmeister", "https://api.brandmeister.network", none, none⟩
      (by with_unfolding_all rfl) (by with_unfolding_all rfl),
   C4_catalog_update.2.1 emptyDatabase [] 4 c4hhdb
      ⟨2, "hearham", "https://hearham.com", none, none⟩
      (by with_unfolding_all rfl) (by with_unfolding_all rfl),
   C4_catalog_update.2.2 emptyDatabase [⟨"91", "Worldwide", "", ""⟩] 5 c4tgdb
      (by with_unfolding_all rfl)⟩

/-- C10: the hearham sync stores each record's callsign as its external_id,
so two batch records sharing a callsign collide on
UNIQUE(source_id, external_id) and INSERT OR REPLACE leaves exactly one row —
the one built from the last such record in input order. -/
theorem C10_hearham_callsign_identity (db0 : Database) (B : List HearhamRepeater)
    (t : Int) (db' : Database) (sourceID : Nat)
    (hsrc : GetSourceID db0 "hearham" = .ok sourceID)
    (h : SyncHearhamData db0 B t = .ok db')
    (l₁ : List HearhamRepeater) (rep : HearhamRepeater) (l₂ : List HearhamRepeater)
    (hsplit : B = l₁ ++ rep :: l₂)
    (hlast : ∀ r ∈ l₂, r.callsign ≠ rep.callsign) :
    ∃ id loc, rowsForKey db'.repeaters (sourceID, rep.callsign) =
      [hearhamRepeaterRow id sourceID rep loc t] := by
  have hdb := SyncHearhamData_ok hsrc h
  subst hsplit
  obtain ⟨id, loc, hid⟩ := hearhamFold_rowsForKey_last sourceID t l₁ rep l₂ db0 hlast
  exact ⟨id, loc, by rw [hdb, updateRepeaterSource_repeaters]; exact hid⟩

def c10rec1 : HearhamRepeater :=
  ⟨5, "K1ABC", 0, 0, "", "", "", "FM", "", "", 0, 0, "", "", 1, ""⟩

def c10rec2 : HearhamRepeater :=
  ⟨6, "K1ABC", 0, 0, "", "", "", "DMR", "", "", 0, 0, "", "", 1, ""⟩

def c10db : Database :=
  ((SyncHearhamData emptyDatabase [c10rec1, c10rec2] 4).toOption).getD emptyDatabase

/-- C10 witness: two records with distinct provider ids 5 and 6 but the same
callsign collapse to the single row carrying the later record's values. -/
theorem C10_hearham_callsign_identity_witness :
    ∃ id loc, rowsForKey c10db.repeaters (2, "K1ABC") =
      [hearhamRepeaterRow id 2 c10rec2 loc 4] :=
  C10_hearham_callsign_identity emptyDatabase [c10rec1, c10rec2] 4 c10db 2
    (by with_unfolding_all rfl) (by with_unfolding_all rfl)
    [c10rec1] c10rec2 [] rfl (by simp)

end DigiLog
